import Mathlib

/-!
Shallow embedding of the reactive-store engine of easy-signal.

The main embedding follows src/src/store.ts: the closures of the source
(subscriber callbacks, unsubscribe functions, invalidators, start/stop
notifiers and compute functions) are defunctionalized into identifier
types, and a fuel-indexed interpreter executes the engine exactly as the
JS does, including the global context, the global subscriber queue, the
try/finally bookkeeping of computed() and JS exceptions (a thrown
TypeError when a null stop handle is invoked).  A second, smaller
interpreter follows the atom engine of src/src/atom.ts (the variant
whose write branch deletes and re-inserts pending subscribers).

Ghost fields (logs of subscriber invocations, start/stop invocations,
completed computed runs, read sets and drain depth) record observable
events; they never influence control flow.
-/

/-- JS values as far as the engine inspects them: undefined, numbers
(truthiness: 0 is falsy), objects with an identity and an optional
primitive valueOf result (a Date is an object whose valueOf is its
timestamp; a plain object's valueOf is itself), and Promises. -/
inductive JSVal
  | undef
  | num (n : Int)
  | obj (oid : Nat) (vof : Option Int)
  | promiseV (pid : Nat)
deriving DecidableEq, Repr

/-- JS strict equality (===): numbers by value, objects and promises by
identity, undefined equal to itself only. -/
def jsStrictEq : JSVal → JSVal → Bool
  | .undef, .undef => true
  | .num a, .num b => a == b
  | .obj i _, .obj j _ => i == j
  | .promiseV i, .promiseV j => i == j
  | _, _ => false

/-- hasValueOf from store.ts: value && typeof value.valueOf === `function`.
Every JS object and every boxed number has a valueOf method, so the test
reduces to truthiness (0 and undefined are falsy). -/
def hasValueOf : JSVal → Bool
  | .undef => false
  | .num n => n != 0
  | .obj _ _ => true
  | .promiseV _ => true

/-- The result of calling valueOf(): numbers and promises return
themselves, an object with a primitive valueOf (e.g. Date) returns that
number, a plain object returns itself. -/
def valueOfJS : JSVal → JSVal
  | .undef => .undef
  | .num n => .num n
  | .obj i none => .obj i none
  | .obj _ (some t) => .num t
  | .promiseV p => .promiseV p

/-- The equality test of store.ts set():
value === newValue || (hasValueOf(value) && hasValueOf(newValue) &&
value.valueOf() === newValue.valueOf()). -/
def setEqJs (v w : JSVal) : Bool :=
  jsStrictEq v w || (hasValueOf v && hasValueOf w && jsStrictEq (valueOfJS v) (valueOfJS w))

/-- JS + on the values the computations use (numbers). -/
def jsAdd : JSVal → JSVal → JSVal
  | .num a, .num b => .num (a + b)
  | _, _ => .undef

abbrev StoreId := Nat
abbrev CompId := Nat
abbrev USub := Nat

/-- Defunctionalized subscriber callbacks: an external callback that
records its argument into a log, a callback that records and then writes
a constant value to another store (to exercise re-entrant writes), the
per-activation subscriber closure of a computed (the activation epoch
distinguishes closures created by distinct runs of the start function),
and the no-op sentinel that batch() inserts into the queue. -/
inductive SubId
  | ext (n : Nat)
  | writer (n : Nat) (target : StoreId) (payload : JSVal)
  | comp (c : CompId) (epoch : Nat)
  | noopS
deriving DecidableEq, Repr

/-- Defunctionalized start functions: the default noop, a user start
function k (records its invocations), or the start closure of computed c. -/
inductive StartId
  | noop
  | user (k : Nat)
  | compStart (c : CompId)
deriving DecidableEq, Repr

/-- Defunctionalized stop handles (what `stop = start(...) || noop`
stores): noop, the cleanup returned by user start k, or the closure
returned by computed`s start which runs the accumulated unsubscribes. -/
inductive StopId
  | noop
  | userStop (k : Nat)
  | compStop (c : CompId)
deriving DecidableEq, Repr

/-- The second argument of subscribe(): undefined (subscriber is invoked
immediately), the literal false of the public noInit API, or the
invalidate closure of computed c`s activation e. -/
inductive InvArg
  | undefA
  | noInit
  | inval (c : CompId) (e : Nat)
deriving DecidableEq, Repr

/-- Deep-embedded compute functions for computed(): constants, the prior
value argument, a store read, addition, a truthiness conditional, and a
computation that throws. -/
inductive CExp
  | lit (v : JSVal)
  | priorV
  | readS (s : StoreId)
  | add (a b : CExp)
  | condE (c t e : CExp)
  | throwE
deriving DecidableEq, Repr

/-- Errors: the TypeError raised by calling a null stop handle, the
Error thrown by computed() on a Promise result, a user exception thrown
by a compute function, and exhaustion of the interpreter fuel. -/
inductive JsErr
  | typeError
  | promiseErr
  | userErr
  | outOfFuel
deriving DecidableEq, Repr

/-- Outcome of running a piece of engine code. -/
inductive Outcome (α : Type)
  | ok (a : α)
  | err (e : JsErr)
deriving DecidableEq, Repr

/-- Association-list lookup (JS Map.get). -/
def lookupA {κ α : Type} [DecidableEq κ] (k : κ) : List (κ × α) → Option α
  | [] => none
  | (k2, a) :: rest => if k2 = k then some a else lookupA k rest

/-- JS Map.set: overwrite in place if the key is present (keeping its
insertion position), otherwise append at the tail. -/
def setA {κ α : Type} [DecidableEq κ] (k : κ) (a : α) : List (κ × α) → List (κ × α)
  | [] => [(k, a)]
  | (k2, b) :: rest => if k2 = k then (k2, a) :: rest else (k2, b) :: setA k a rest

/-- JS Map.delete. -/
def eraseA {κ α : Type} [DecidableEq κ] (k : κ) : List (κ × α) → List (κ × α)
  | [] => []
  | (k2, b) :: rest => if k2 = k then rest else (k2, b) :: eraseA k rest

/-- JS Set.add: append if absent. -/
def addIfAbsent {α : Type} [DecidableEq α] (a : α) (l : List α) : List α :=
  if a ∈ l then l else l ++ [a]

/-- Per-store state: the closed-over value, the subscribers Map
(subscriber ↦ [unsubscribe closure, optional invalidator identified by
the owning computed and its activation epoch]), the stop variable
(none models null/undefined) and the started re-entrancy flag of get(). -/
structure StoreSt where
  value : JSVal
  subs : List (SubId × (USub × Option (CompId × Nat)))
  stop : Option StopId
  started : Bool
deriving DecidableEq, Repr

/-- Per-computed state: the closed-over prior value, the unsubscribes
Set of the most recent run, and the per-activation pending counter and
activation epoch (a fresh epoch models the fresh closures each
invocation of the start function creates). -/
structure CompSt where
  value : JSVal
  unsubscribes : List USub
  pending : Int
  epoch : Nat
deriving DecidableEq, Repr

/-- The ambient tracking context frame: which computed activation is
running, its accumulated unsubscribe set, and (ghost) the stores read. -/
structure Ctx where
  comp : CompId
  epoch : Nat
  unsubscribes : List USub
  reads : List StoreId
deriving DecidableEq, Repr

/-- The static program: each computed`s compute expression and output
store, and each store`s start function. -/
structure Env where
  compFn : CompId → CExp
  compOut : CompId → StoreId
  startOf : StoreId → StartId

/-- The engine state: all stores and computeds, the global context slot
and subscriber queue, the table interpreting unsubscribe closures and a
fresh-name counter for them, and the ghost logs. -/
structure Eng where
  stores : List (StoreId × StoreSt)
  comps : List (CompId × CompSt)
  context : Option Ctx
  queue : List (SubId × JSVal)
  usubTable : List (USub × (StoreId × SubId))
  nextUsub : USub
  log : List (Nat × JSVal)
  startLog : List (Bool × Nat)
  runLog : List (CompId × JSVal)
  syncLog : List (CompId × Nat × List StoreId)
  drainDepth : Nat
  maxDrainDepth : Nat
deriving DecidableEq, Repr

def dfltStore : StoreSt := { value := .undef, subs := [], stop := none, started := false }

def dfltComp : CompSt := { value := .undef, unsubscribes := [], pending := 0, epoch := 0 }

/-- Look a store up (every store a scenario uses is present in the map;
the default is never reached). -/
def getStore (S : Eng) (sid : StoreId) : StoreSt := (lookupA sid S.stores).getD dfltStore

def getComp (S : Eng) (c : CompId) : CompSt := (lookupA c S.comps).getD dfltComp

def updStore (sid : StoreId) (f : StoreSt → StoreSt) (S : Eng) : Eng :=
  { S with stores := setA sid (f (getStore S sid)) S.stores }

def updComp (c : CompId) (f : CompSt → CompSt) (S : Eng) : Eng :=
  { S with comps := setA c (f (getComp S c)) S.comps }

/-- Record a read and an accumulated unsubscribe in the current context
frame (get() does this whenever a context is active). -/
def ctxAccum (u : USub) (sid : StoreId) (S : Eng) : Eng :=
  match S.context with
  | none => S
  | some ctx =>
      { S with context := some { ctx with
          unsubscribes := addIfAbsent u ctx.unsubscribes,
          reads := addIfAbsent sid ctx.reads } }

/-- The invalidate closure of computed c (store.ts lines 188-197):
pending++ (only the live activation`s counter exists; an invalidate
closure of an older epoch increments a dead variable), then
forExistsInBoth(subscribers, new Map(root.subscriberQueue), s => move s
to the end of the queue), where subscribers is the computed`s output
store`s subscriber map. -/
def runInvalidate (env : Env) (c : CompId) (e : Nat) (S : Eng) : Eng :=
  let S1 := if (getComp S c).epoch = e then
      updComp c (fun cs => { cs with pending := cs.pending + 1 }) S
    else S
  let asubs := (getStore S1 (env.compOut c)).subs.map (·.1)
  let bq := S1.queue
  let smallKeys := if asubs.length ≤ bq.length then asubs else bq.map (·.1)
  let largeHas : SubId → Bool :=
    if asubs.length ≤ bq.length then fun k => (lookupA k bq).isSome
    else fun k => k ∈ asubs
  smallKeys.foldl (fun S2 k =>
    if largeHas k then
      let v := (lookupA k S2.queue).getD .undef
      { S2 with queue := setA k v (eraseA k S2.queue) }
    else S2) S1

/-- The callback set() hands to queue() (store.ts lines 115-122): for
each subscriber of the store, if it is not already pending, enqueue it
with the store`s current value and call its invalidator if it has one.
Subscribers already pending are skipped. -/
def enqueueSubs (env : Env) (sid : StoreId)
    (snapshot : List (SubId × (USub × Option (CompId × Nat)))) (S : Eng) : Eng :=
  snapshot.foldl (fun S1 entry =>
    let sub := entry.1
    if (lookupA sub S1.queue).isSome then S1
    else
      let S2 := { S1 with queue := setA sub (getStore S1 sid).value S1.queue }
      match entry.2.2 with
      | some (c, e) => runInvalidate env c e S2
      | none => S2) S

/-- The argument of queue(): either the enqueue callback of a set() on a
given store, or a batch body, modelled as a list of writes. -/
inductive QFn
  | enq (sid : StoreId)
  | prog (ws : List (StoreId × JSVal))

mutual

/-- get() of store.ts (lines 89-106): subscribe the ambient context if
one is active, run the start function (and immediately its cleanup) if
the store has no subscribers and is not mid-activation, return value. -/
def storeGet (env : Env) : Nat → StoreId → Eng → Eng × Outcome JSVal
  | 0, _, S => (S, .err .outOfFuel)
  | fuel+1, sid, S =>
    let afterCtx : Eng × Outcome Unit :=
      match S.context with
      | some ctx =>
          match subscribeStore env fuel sid (.comp ctx.comp ctx.epoch) (.inval ctx.comp ctx.epoch) S with
          | (S1, .ok u) => (ctxAccum u sid S1, Outcome.ok ())
          | (S1, .err e) => (S1, .err e)
      | none => (S, .ok ())
    match afterCtx with
    | (S1, .err e) => (S1, .err e)
    | (S1, .ok ()) =>
      if (getStore S1 sid).subs.isEmpty && !(getStore S1 sid).started then
        let S2 := updStore sid (fun st => { st with started := true }) S1
        match runStart env fuel (env.startOf sid) sid S2 with
        | (S3, .ok stopId) =>
            match runStop env fuel stopId S3 with
            | (S4, .ok ()) =>
                let S5 := updStore sid (fun st => { st with started := false }) S4
                (S5, .ok (getStore S5 sid).value)
            | (S4, .err e) => (updStore sid (fun st => { st with started := false }) S4, .err e)
        | (S3, .err e) => (updStore sid (fun st => { st with started := false }) S3, .err e)
      else (S1, .ok (getStore S1 sid).value)
termination_by structural fuel => fuel

/-- set() of store.ts (lines 108-124): return if the new value is equal
under setEqJs, otherwise store it and, if the stop handle is live, hand
the subscribers to queue(). -/
def storeSet (env : Env) : Nat → StoreId → JSVal → Eng → Eng × Outcome Unit
  | 0, _, _, S => (S, .err .outOfFuel)
  | fuel+1, sid, v, S =>
    if setEqJs (getStore S sid).value v then (S, .ok ())
    else
      let S1 := updStore sid (fun st => { st with value := v }) S
      if (getStore S1 sid).stop.isSome then
        queueRun env fuel (.enq sid) false S1
      else (S1, .ok ())
termination_by structural fuel => fuel

/-- subscribe() of store.ts (lines 130-156): return the existing
unsubscribe if this subscriber is already registered; otherwise create a
fresh unsubscribe closure, register, run the start function if this is
the first subscriber, invoke the subscriber immediately unless an
invalidator or false was supplied, and return the unsubscribe. -/
def subscribeStore (env : Env) : Nat → StoreId → SubId → InvArg → Eng → Eng × Outcome USub
  | 0, _, _, _, S => (S, .err .outOfFuel)
  | fuel+1, sid, sub, invArg, S =>
    match lookupA sub (getStore S sid).subs with
    | some (u, _) => (S, .ok u)
    | none =>
      let u := S.nextUsub
      let inv : Option (CompId × Nat) :=
        match invArg with
        | .inval c e => some (c, e)
        | _ => none
      let S1 := { S with
        usubTable := setA u (sid, sub) S.usubTable,
        nextUsub := u + 1 }
      let S2 := updStore sid (fun st => { st with subs := setA sub (u, inv) st.subs }) S1
      let afterStart : Eng × Outcome Unit :=
        if (getStore S2 sid).subs.length = 1 then
          match runStart env fuel (env.startOf sid) sid S2 with
          | (S3, .ok stopId) =>
              (updStore sid (fun st => { st with stop := some stopId }) S3, Outcome.ok ())
          | (S3, .err e) => (S3, .err e)
        else (S2, .ok ())
      match afterStart with
      | (S3, .err e) => (S3, .err e)
      | (S3, .ok ()) =>
        match invArg with
        | .undefA =>
            match invokeSub env fuel sub (getStore S3 sid).value S3 with
            | (S4, .ok ()) => (S4, .ok u)
            | (S4, .err e) => (S4, .err e)
        | _ => (S3, .ok u)
termination_by structural fuel => fuel

/-- The unsubscribe closure (store.ts lines 136-142): delete the
subscriber; if the map became (or already was) empty, call the stop
handle and null it.  Calling a null stop handle is the JS TypeError. -/
def runUnsub (env : Env) : Nat → USub → Eng → Eng × Outcome Unit
  | 0, _, S => (S, .err .outOfFuel)
  | fuel+1, u, S =>
    match lookupA u S.usubTable with
    | none => (S, .ok ())
    | some (sid, sub) =>
      let S1 := updStore sid (fun st => { st with subs := eraseA sub st.subs }) S
      if (getStore S1 sid).subs.isEmpty then
        match (getStore S1 sid).stop with
        | none => (S1, .err .typeError)
        | some stopId =>
            match runStop env fuel stopId S1 with
            | (S2, .ok ()) => (updStore sid (fun st => { st with stop := none }) S2, .ok ())
            | (S2, .err e) => (S2, .err e)
      else (S1, .ok ())
termination_by structural fuel => fuel

/-- Run a list of unsubscribe closures in order (Set.forEach); an
exception aborts the iteration. -/
def runUnsubs (env : Env) : Nat → List USub → Eng → Eng × Outcome Unit
  | 0, _, S => (S, .err .outOfFuel)
  | _+1, [], S => (S, .ok ())
  | fuel+1, u :: rest, S =>
    match runUnsub env fuel u S with
    | (S1, .ok ()) => runUnsubs env fuel rest S1
    | (S1, .err e) => (S1, .err e)
termination_by structural fuel => fuel

/-- Dispatch a start function. The computed start (store.ts lines
184-231) creates fresh per-activation closures (a new epoch, pending = 0),
runs sync once, and returns the stop closure. -/
def runStart (env : Env) : Nat → StartId → StoreId → Eng → Eng × Outcome StopId
  | 0, _, _, S => (S, .err .outOfFuel)
  | _+1, .noop, _, S => (S, .ok .noop)
  | _+1, .user k, _, S => ({ S with startLog := S.startLog ++ [(true, k)] }, .ok (.userStop k))
  | fuel+1, .compStart c, _, S =>
    let S1 := updComp c (fun cs => { cs with epoch := cs.epoch + 1, pending := 0 }) S
    match runSync env fuel c ((getComp S1 c).epoch) S1 with
    | (S2, .ok ()) => (S2, .ok (.compStop c))
    | (S2, .err e) => (S2, .err e)
termination_by structural fuel => fuel

/-- Dispatch a stop handle. The computed stop closure runs the current
unsubscribes set (without clearing it). -/
def runStop (env : Env) : Nat → StopId → Eng → Eng × Outcome Unit
  | 0, _, S => (S, .err .outOfFuel)
  | _+1, .noop, S => (S, .ok ())
  | _+1, .userStop k, S => ({ S with startLog := S.startLog ++ [(false, k)] }, .ok ())
  | fuel+1, .compStop c, S => runUnsubs env fuel ((getComp S c).unsubscribes) S
termination_by structural fuel => fuel

/-- Invoke a subscriber callback with a value: external callbacks log,
writer callbacks log and write, the computed subscriber closure is
`() => --pending === 0 && sync()` (a closure from a stale epoch
decrements a dead counter and is a no-op). -/
def invokeSub (env : Env) : Nat → SubId → JSVal → Eng → Eng × Outcome Unit
  | 0, _, _, S => (S, .err .outOfFuel)
  | _+1, .ext n, v, S => ({ S with log := S.log ++ [(n, v)] }, .ok ())
  | _+1, .noopS, _, S => (S, .ok ())
  | fuel+1, .writer n t w, v, S =>
      storeSet env fuel t w { S with log := S.log ++ [(n, v)] }
  | fuel+1, .comp c e, _, S =>
      if (getComp S c).epoch = e then
        let S1 := updComp c (fun cs => { cs with pending := cs.pending - 1 }) S
        if (getComp S1 c).pending = 0 then runSync env fuel c e S1 else (S1, .ok ())
      else (S, .ok ())
termination_by structural fuel => fuel

/-- The tail of sync()`s finally block plus context restore (store.ts
lines 213-225): remove the unsubscribes accumulated this run from the
old set, run the remaining stale unsubscribes, commit the new set and
restore the prior context.  An exception from a stale unsubscribe skips
the commit and the restore. -/
def runFinally (env : Env) : Nat → CompId → Option Ctx → Eng → Eng × Outcome Unit
  | 0, _, _, S => (S, .err .outOfFuel)
  | fuel+1, c, prior, S =>
    let ctxU := match S.context with
      | some ctx => ctx.unsubscribes
      | none => []
    let stale := (getComp S c).unsubscribes.filter (fun u => ¬ u ∈ ctxU)
    let S1 := updComp c (fun cs => { cs with unsubscribes := stale }) S
    match runUnsubs env fuel stale S1 with
    | (S2, .ok ()) =>
        let S3 := updComp c (fun cs => { cs with unsubscribes := ctxU }) S2
        ({ S3 with context := prior }, .ok ())
    | (S2, .err e) => (S2, .err e)
termination_by structural fuel => fuel

/-- sync() of computed (store.ts lines 199-227): push a fresh context
frame, run the compute function, throw if it produced a Promise, run the
finally bookkeeping, restore the context, then write the result to the
output store.  Ghost: a completed run is recorded in runLog and its read
set in syncLog. -/
def runSync (env : Env) : Nat → CompId → Nat → Eng → Eng × Outcome Unit
  | 0, _, _, S => (S, .err .outOfFuel)
  | fuel+1, c, e, S =>
    let prior := S.context
    let S1 := { S with context := some ⟨c, e, [], []⟩ }
    match evalCExp env fuel c (env.compFn c) S1 with
    | (S2, .ok v) =>
        let reads := match S2.context with
          | some ctx => ctx.reads
          | none => []
        let S3 := updComp c (fun cs => { cs with value := v }) S2
        match v with
        | .promiseV _ =>
            match runFinally env fuel c prior S3 with
            | (S4, .ok ()) => (S4, .err .promiseErr)
            | (S4, .err e2) => (S4, .err e2)
        | _ =>
            match runFinally env fuel c prior S3 with
            | (S4, .ok ()) =>
                let S5 := { S4 with
                  runLog := S4.runLog ++ [(c, v)],
                  syncLog := S4.syncLog ++ [(c, e, reads)] }
                storeSet env fuel (env.compOut c) v S5
            | (S4, .err e2) => (S4, .err e2)
    | (S2, .err e1) =>
        match runFinally env fuel c prior S2 with
        | (S4, .ok ()) => (S4, .err e1)
        | (S4, .err e2) => (S4, .err e2)
termination_by structural fuel => fuel

/-- Evaluate a compute expression; store reads go through get(). -/
def evalCExp (env : Env) : Nat → CompId → CExp → Eng → Eng × Outcome JSVal
  | 0, _, _, S => (S, .err .outOfFuel)
  | _+1, _, .lit v, S => (S, .ok v)
  | _+1, c, .priorV, S => (S, .ok (getComp S c).value)
  | fuel+1, _, .readS sid, S => storeGet env fuel sid S
  | fuel+1, c, .add a b, S =>
    match evalCExp env fuel c a S with
    | (S1, .ok va) =>
        match evalCExp env fuel c b S1 with
        | (S2, .ok vb) => (S2, .ok (jsAdd va vb))
        | (S2, .err e) => (S2, .err e)
    | (S1, .err e) => (S1, .err e)
  | fuel+1, c, .condE cx t f, S =>
    match evalCExp env fuel c cx S with
    | (S1, .ok vc) =>
        if (match vc with
            | .undef => false
            | .num n => n != 0
            | .obj _ _ => true
            | .promiseV _ => true) then evalCExp env fuel c t S1
        else evalCExp env fuel c f S1
    | (S1, .err e) => (S1, .err e)
  | _+1, _, .throwE, S => (S, .err .userErr)
termination_by structural fuel => fuel

/-- queue() of store.ts (lines 274-291): remember whether the queue was
empty, insert the batch sentinel if asked, run the callback, and drain
if this call found the queue empty. -/
def queueRun (env : Env) : Nat → QFn → Bool → Eng → Eng × Outcome Unit
  | 0, _, _, S => (S, .err .outOfFuel)
  | fuel+1, f, batchFlag, S =>
    let runQueue := S.queue.isEmpty
    let S1 := if runQueue && batchFlag then { S with queue := setA .noopS .undef S.queue } else S
    match runQFn env fuel f S1 with
    | (S2, .ok ()) =>
        if runQueue then
          let S3 := { S2 with
            drainDepth := S2.drainDepth + 1,
            maxDrainDepth := max S2.maxDrainDepth (S2.drainDepth + 1) }
          match drainLoop env fuel S3 with
          | (S4, .ok ()) => ({ S4 with drainDepth := S4.drainDepth - 1 }, .ok ())
          | (S4, .err e) => (S4, .err e)
        else (S2, .ok ())
    | (S2, .err e) => (S2, .err e)
termination_by structural fuel => fuel

/-- The function handed to queue(): a set()`s enqueue callback or a
batch body running a list of writes. -/
def runQFn (env : Env) : Nat → QFn → Eng → Eng × Outcome Unit
  | 0, _, S => (S, .err .outOfFuel)
  | _+1, .enq sid, S => (enqueueSubs env sid ((getStore S sid).subs) S, .ok ())
  | fuel+1, .prog ws, S => runWrites env fuel ws S
termination_by structural fuel => fuel

/-- Run the writes of a batch body in order. -/
def runWrites (env : Env) : Nat → List (StoreId × JSVal) → Eng → Eng × Outcome Unit
  | 0, _, S => (S, .err .outOfFuel)
  | _+1, [], S => (S, .ok ())
  | fuel+1, (sid, v) :: rest, S =>
    match storeSet env fuel sid v S with
    | (S1, .ok ()) => runWrites env fuel rest S1
    | (S1, .err e) => (S1, .err e)
termination_by structural fuel => fuel

/-- The drain loop of queue(): while the queue is nonempty, pop the head
entry, delete it, invoke it with its value. -/
def drainLoop (env : Env) : Nat → Eng → Eng × Outcome Unit
  | 0, S => (S, .err .outOfFuel)
  | fuel+1, S =>
    match S.queue with
    | [] => (S, .ok ())
    | (sub, v) :: rest =>
      match invokeSub env fuel sub v { S with queue := rest } with
      | (S1, .ok ()) => drainLoop env fuel S1
      | (S1, .err e) => (S1, .err e)
termination_by structural fuel => fuel

end

/-- batch() of store.ts (lines 238-240): queue(fn, true). -/
def batchWrites (env : Env) (fuel : Nat) (ws : List (StoreId × JSVal)) (S : Eng) :
    Eng × Outcome Unit :=
  queueRun env fuel (.prog ws) true S

/-- A pristine store holding a value. -/
def initStore (v : JSVal) : StoreSt := { value := v, subs := [], stop := none, started := false }

/-- A pristine computed state. -/
def initComp (v : JSVal) : CompSt := { value := v, unsubscribes := [], pending := 0, epoch := 0 }

/-- An engine state with given stores and computeds and empty globals. -/
def initEng (stores : List (StoreId × StoreSt)) (comps : List (CompId × CompSt)) : Eng :=
  { stores := stores, comps := comps, context := none, queue := [],
    usubTable := [], nextUsub := 0, log := [], startLog := [],
    runLog := [], syncLog := [], drainDepth := 0, maxDrainDepth := 0 }

/-!
The atom engine of src/src/atom.ts (the variant whose write branch,
lines 276-302, performs the delete-and-re-insert tail promotion).
Derived atoms are not needed by any claim against this engine, so its
subscribers are external callbacks, writer callbacks and the no-op
function; the optional invalidator a subscription can carry is
defunctionalized as a number whose invocations are ghost-logged. -/

/-- Subscriber callbacks of the atom engine. -/
inductive ASub
  | ext (n : Nat)
  | writer (n : Nat) (target : StoreId) (payload : JSVal)
  | noopA
deriving DecidableEq, Repr

/-- Stop handles of the atom engine (no derived atoms). -/
inductive AStop
  | noopA
  | userStop (k : Nat)
deriving DecidableEq, Repr

/-- Per-atom state, as in store.ts but with atom.ts`s subscriber map
subscriber ↦ [unsubscribe, invalidate?]. -/
structure AtomSt where
  value : JSVal
  subs : List (ASub × (USub × Option Nat))
  stop : Option AStop
  started : Bool
deriving DecidableEq, Repr

/-- Atom engine state: the atoms, the global subscriber queue shared by
all atoms, the unsubscribe-closure table, and ghost logs. -/
structure AEng where
  atoms : List (StoreId × AtomSt)
  queue : List (ASub × JSVal)
  ausubTable : List (USub × (StoreId × ASub))
  nextUsub : USub
  log : List (Nat × JSVal)
  invLog : List Nat
  startLog : List (Bool × Nat)
deriving DecidableEq, Repr

/-- Which start function each atom has: none models the default noop,
some k a user start whose invocations are ghost-logged. -/
def AEnv := StoreId → Option Nat

def dfltAtom : AtomSt := { value := .undef, subs := [], stop := none, started := false }

def getAtom (S : AEng) (aid : StoreId) : AtomSt := (lookupA aid S.atoms).getD dfltAtom

def updAtom (aid : StoreId) (f : AtomSt → AtomSt) (S : AEng) : AEng :=
  { S with atoms := setA aid (f (getAtom S aid)) S.atoms }

/-- The enqueue loop of the atom write branch (atom.ts lines 285-293):
for each subscriber, if it is not pending call its invalidator, else
delete its pending entry; in both cases (re-)insert it at the current
tail with the new value. -/
def atomEnqueue (aid : StoreId) (snapshot : List (ASub × (USub × Option Nat))) (S : AEng) : AEng :=
  snapshot.foldl (fun S1 entry =>
    let sub := entry.1
    let S2 :=
      if (lookupA sub S1.queue).isSome then
        { S1 with queue := eraseA sub S1.queue }
      else
        match entry.2.2 with
        | some k => { S1 with invLog := S1.invLog ++ [k] }
        | none => S1
    { S2 with queue := setA sub (getAtom S2 aid).value S2.queue }) S

mutual

/-- The write branch of atom() (atom.ts lines 276-302): if the value
changed, store it; if the atom is ready, remember whether the queue was
empty, run the enqueue loop with tail promotion, and drain if this
write found the queue empty.  (A call with the argument undefined is
the read branch and is not a write.) -/
def atomSet (env : AEnv) : Nat → StoreId → JSVal → AEng → AEng × Outcome Unit
  | 0, _, _, S => (S, .err .outOfFuel)
  | fuel+1, aid, v, S =>
    if jsStrictEq (getAtom S aid).value v then (S, .ok ())
    else
      let S1 := updAtom aid (fun st => { st with value := v }) S
      if (getAtom S1 aid).stop.isSome then
        let runQueue := S1.queue.isEmpty
        let S2 := atomEnqueue aid ((getAtom S1 aid).subs) S1
        if runQueue then atomDrain env fuel S2 else (S2, .ok ())
      else (S1, .ok ())
termination_by structural fuel => fuel

/-- The drain loop of the atom write branch: pop the head entry, delete
it, invoke it, until the queue is empty. -/
def atomDrain (env : AEnv) : Nat → AEng → AEng × Outcome Unit
  | 0, S => (S, .err .outOfFuel)
  | fuel+1, S =>
    match S.queue with
    | [] => (S, .ok ())
    | (sub, v) :: rest =>
      match atomInvoke env fuel sub v { S with queue := rest } with
      | (S1, .ok ()) => atomDrain env fuel S1
      | (S1, .err e) => (S1, .err e)
termination_by structural fuel => fuel

/-- Invoke an atom subscriber callback. -/
def atomInvoke (env : AEnv) : Nat → ASub → JSVal → AEng → AEng × Outcome Unit
  | 0, _, _, S => (S, .err .outOfFuel)
  | _+1, .ext n, v, S => ({ S with log := S.log ++ [(n, v)] }, .ok ())
  | _+1, .noopA, _, S => (S, .ok ())
  | fuel+1, .writer n t w, v, S =>
      atomSet env fuel t w { S with log := S.log ++ [(n, v)] }
termination_by structural fuel => fuel

end

/-- subscribe() of atom.ts (lines 304-330): register (or return the
existing unsubscribe), run the start function on the first subscriber,
and invoke the subscriber immediately unless an invalidator was given. -/
def atomSubscribe (env : AEnv) (fuel : Nat) (aid : StoreId) (sub : ASub) (inv : Option Nat)
    (S : AEng) : AEng × Outcome USub :=
  match lookupA sub (getAtom S aid).subs with
  | some (u, _) => (S, .ok u)
  | none =>
    let u := S.nextUsub
    let S1 := { S with
      ausubTable := setA u (aid, sub) S.ausubTable,
      nextUsub := u + 1 }
    let S2 := updAtom aid (fun st => { st with subs := setA sub (u, inv) st.subs }) S1
    let S3 :=
      if (getAtom S2 aid).subs.length = 1 then
        match env aid with
        | some k =>
            updAtom aid (fun st => { st with stop := some (.userStop k) })
              { S2 with startLog := S2.startLog ++ [(true, k)] }
        | none => updAtom aid (fun st => { st with stop := some .noopA }) S2
      else S2
    match inv with
    | none =>
        match atomInvoke env fuel sub ((getAtom S3 aid).value) S3 with
        | (S4, .ok ()) => (S4, .ok u)
        | (S4, .err e) => (S4, .err e)
    | some _ => (S3, .ok u)

/-- The unsubscribe closure of atom.ts (lines 310-316), identical in
structure to the one of store.ts. -/
def atomUnsub (u : USub) (S : AEng) : AEng × Outcome Unit :=
  match lookupA u S.ausubTable with
  | none => (S, .ok ())
  | some (aid, sub) =>
    let S1 := updAtom aid (fun st => { st with subs := eraseA sub st.subs }) S
    if (getAtom S1 aid).subs.isEmpty then
      match (getAtom S1 aid).stop with
      | none => (S1, .err .typeError)
      | some st =>
          let S2 := match st with
            | .noopA => S1
            | .userStop k => { S1 with startLog := S1.startLog ++ [(false, k)] }
          (updAtom aid (fun s2 => { s2 with stop := none }) S2, .ok ())
    else (S1, .ok ())

/-- A pristine atom. -/
def initAtom (v : JSVal) : AtomSt := { value := v, subs := [], stop := none, started := false }

/-- A pristine atom engine state. -/
def initAEng (atoms : List (StoreId × AtomSt)) : AEng :=
  { atoms := atoms, queue := [], ausubTable := [], nextUsub := 0,
    log := [], invLog := [], startLog := [] }

/-!
Scenario programs used to settle the claims.
-/

/-- A program with plain stores only (no computed is ever activated). -/
def plainEnv : Env :=
  { compFn := fun _ => .lit .undef, compOut := fun _ => 99, startOf := fun _ => .noop }

/-- A program whose every store has the user start function 7. -/
def userEnv : Env :=
  { compFn := fun _ => .lit .undef, compOut := fun _ => 99, startOf := fun _ => .user 7 }

/-- A one-store state whose start function 7 has run once for its one
subscriber (used as the concrete input of the C4 witness). -/
def c4W : Eng :=
  { stores := [(0, { value := .num 0, subs := [(.ext 1, 0, none)],
                     stop := some (.userStop 7), started := false })],
    comps := [], context := none, queue := [], usubTable := [(0, 0, .ext 1)],
    nextUsub := 1, log := [(1, .num 0)], startLog := [(true, 7)], runLog := [],
    syncLog := [], drainDepth := 0, maxDrainDepth := 0 }

/-- C1 program: stores 0 and 1 hold numbers, computed 0 is their sum
with output store 2. -/
def c1Env : Env :=
  { compFn := fun _ => .add (.readS 0) (.readS 1),
    compOut := fun _ => 2,
    startOf := fun s => if s = 2 then .compStart 0 else .noop }

def c1Init (a0 b0 : Int) : Eng :=
  initEng [(0, initStore (.num a0)), (1, initStore (.num b0)), (2, initStore .undef)]
    [(0, initComp .undef)]

/-- C1 state after an external callback subscribes to the sum (the
computed performs its initial run). -/
def c1Pre (a0 b0 : Int) : Eng := (subscribeStore c1Env 30 2 (.ext 1) .undefA (c1Init a0 b0)).1

/-- C1 execution: a batch writing both dependencies. -/
def c1Run (a0 b0 a1 b1 : Int) : Eng × Outcome Unit :=
  batchWrites c1Env 30 [(0, .num a1), (1, .num b1)] (c1Pre a0 b0)

/-- C2 store-engine scenario: one store with an external subscriber. -/
def c2Pre : Eng :=
  (subscribeStore plainEnv 30 0 (.ext 1) .undefA
    (initEng [(0, initStore (.num 0))] [])).1

/-- C2 store-engine execution: two writes to the same store in a batch. -/
def c2Run : Eng × Outcome Unit := batchWrites plainEnv 30 [(0, .num 1), (0, .num 2)] c2Pre

/-- C2 atom-engine scenario: atom 0 has two writer subscribers that
write v1 and then v2 to atom 1; atom 1 has an external subscriber. -/
def c2aEnv : AEnv := fun _ => none

def c2aInit (b0 : Int) : AEng :=
  initAEng [(0, initAtom (.num 0)), (1, initAtom (.num b0))]

def c2aPre (b0 v1 v2 : Int) : AEng :=
  (atomSubscribe c2aEnv 30 1 (.ext 3) none
    ((atomSubscribe c2aEnv 30 0 (.writer 2 1 (.num v2)) (some 12)
      ((atomSubscribe c2aEnv 30 0 (.writer 1 1 (.num v1)) (some 11) (c2aInit b0)).1)).1)).1

/-- C2 atom-engine execution: one write to atom 0 makes both writers
fire inside the drain; the second write to atom 1 finds the external
subscriber already pending. -/
def c2aRun (b0 v1 v2 x : Int) : AEng × Outcome Unit :=
  atomSet c2aEnv 30 0 (.num x) (c2aPre b0 v1 v2)

/-- C6 scenario: store 0 has a writer subscriber that writes 5 to store
1; store 1 has an external subscriber. -/
def c6Pre : Eng :=
  (subscribeStore plainEnv 30 1 (.ext 2) .undefA
    ((subscribeStore plainEnv 30 0 (.writer 1 1 (.num 5)) .noInit
      (initEng [(0, initStore (.num 0)), (1, initStore (.num 7))] [])).1)).1

/-- C6 execution: the write to store 0 starts a drain; the writer`s
re-entrant write to store 1 occurs when the drain has just emptied the
queue. -/
def c6Run : Eng × Outcome Unit := storeSet plainEnv 30 0 (.num 1) c6Pre

/-- C7 program: computed 0 reads store 0 and then store 1 or store 2
depending on its truthiness; output store 3. -/
def c7Env : Env :=
  { compFn := fun _ => .condE (.readS 0) (.readS 1) (.readS 2),
    compOut := fun _ => 3,
    startOf := fun s => if s = 3 then .compStart 0 else .noop }

def c7Init : Eng :=
  initEng
    [(0, initStore (.num 1)), (1, initStore (.num 10)), (2, initStore (.num 20)),
     (3, initStore .undef)]
    [(0, initComp .undef)]

/-- C7 step 1: subscribe to the computed (it reads stores 0 and 1). -/
def c7Sub1 : Eng × Outcome USub := subscribeStore c7Env 40 3 (.ext 1) .undefA c7Init

def c7U : USub :=
  match c7Sub1.2 with
  | .ok u => u
  | .err _ => 999

/-- C7 step 2: unsubscribe; the computed goes dormant (dependency stops
are nulled; the unsubscribes set of the previous activation is kept). -/
def c7Dormant : Eng := (runUnsub c7Env 40 c7U c7Sub1.1).1

/-- C7 step 3: silently flip store 0 to 0, so the next run reads store
2 instead of store 1. -/
def c7Switched : Eng := (storeSet c7Env 40 0 (.num 0) c7Dormant).1

/-- C7 step 4: re-subscribe.  The revival run completes its tracked
function, but a stale unsubscribe from the previous activation invokes
the nulled stop handle of store 1 inside the finally block, before the
context-restoring assignment. -/
def c7Revive : Eng × Outcome USub := subscribeStore c7Env 40 3 (.ext 2) .undefA c7Switched

/-- C8 scenario: a single external subscriber on a plain store. -/
def c8Sub : Eng × Outcome USub :=
  subscribeStore plainEnv 30 0 (.ext 1) .undefA (initEng [(0, initStore (.num 0))] [])

def c8U : USub :=
  match c8Sub.2 with
  | .ok u => u
  | .err _ => 999

/-- C8: state after the first call of the unsubscribe function. -/
def c8Once : Eng := (runUnsub plainEnv 30 c8U c8Sub.1).1

/-- C8: the second call of the same unsubscribe function. -/
def c8Twice : Eng × Outcome Unit := runUnsub plainEnv 30 c8U c8Once

/-- C9 witness program: computed 0 returns a Promise; output store 1. -/
def c9Env : Env :=
  { compFn := fun _ => .lit (.promiseV 0),
    compOut := fun _ => 1,
    startOf := fun s => if s = 1 then .compStart 0 else .noop }

def c9Eng : Eng := initEng [(0, initStore .undef), (1, initStore .undef)] [(0, initComp .undef)]

/-- The stores a compute expression syntactically mentions. -/
def CExp.readsIn : CExp → List StoreId
  | .lit _ => []
  | .priorV => []
  | .readS sid => [sid]
  | .add a b => a.readsIn ++ b.readsIn
  | .condE cx t f => cx.readsIn ++ (t.readsIn ++ f.readsIn)
  | .throwE => []

/-- The registration of computed activation (c, e) at store sid: the
entry keyed by its subscriber closure in the store`s subscriber map. -/
def regAt (c : CompId) (e : Nat) (S : Eng) (sid : StoreId) :
    Option (USub × Option (CompId × Nat)) :=
  lookupA (SubId.comp c e) (getStore S sid).subs

/-- Stop handles a store holds when only plain (non-computed) start
functions are in play. -/
def plainStop : Option StopId → Bool
  | some (.compStop _) => false
  | _ => true

/-- Start functions that are not a computed`s start. -/
def plainStart : StartId → Bool
  | .compStart _ => false
  | _ => true

/-- A subscriber entry that is an external callback without an
invalidator. -/
def extEntry : SubId × (USub × Option (CompId × Nat)) → Bool
  | (.ext _, _, none) => true
  | _ => false

/-- Queue keys whose invocation only appends to the ghost log. -/
def harmlessKey : SubId → Bool
  | .ext _ => true
  | .noopS => true
  | _ => false

/-- Invariant of a state mid-way through the tracked evaluation of
computed activation (c, e), relative to the state S0 the run started
from: the context frame records us and rs; comps, the queue and the
stores outside rs are untouched; every store in rs carries exactly one
registration for (c, e) whose unsubscribe closure is in us; and every
member of us is the registration closure of a store in rs. -/
structure TrackInv (c : CompId) (e : Nat) (S0 S : Eng)
    (us : List USub) (rs : List StoreId) : Prop where
  ctx_eq : S.context = some ⟨c, e, us, rs⟩
  comps_eq : S.comps = S0.comps
  queue_eq : S.queue = S0.queue
  syncLog_eq : S.syncLog = S0.syncLog
  next_ge : S0.nextUsub ≤ S.nextUsub
  fresh : ∀ u, S.nextUsub ≤ u → lookupA u S.usubTable = none
  table_mono : ∀ u, (lookupA u S0.usubTable).isSome →
    lookupA u S.usubTable = lookupA u S0.usubTable
  unread : ∀ sid, sid ∉ rs → getStore S sid = getStore S0 sid
  read_old : ∀ sid ∈ rs, ∀ u p, regAt c e S0 sid = some (u, p) →
    regAt c e S sid = some (u, p) ∧ u ∈ us
  read_new : ∀ sid ∈ rs, regAt c e S0 sid = none →
    ∃ u, regAt c e S sid = some (u, some (c, e)) ∧ u ∈ us ∧
      lookupA u S.usubTable = some (sid, SubId.comp c e)
  us_dom : ∀ u ∈ us, ∃ sid, sid ∈ rs ∧
    lookupA u S.usubTable = some (sid, SubId.comp c e) ∧
    ∃ p, regAt c e S sid = some (u, p)
  stops_plain : ∀ sid, plainStop (getStore S sid).stop = true
  subs_nodup : ∀ sid, ((getStore S sid).subs.map Prod.fst).Nodup

/-- C5 witness program: computed 0 reads the selector store 2 and then
one of stores 0/1; its output store is 3; every start function is the
default noop. -/
def c5Env : Env :=
  { compFn := fun _ => .condE (.readS 2) (.readS 0) (.readS 1),
    compOut := fun _ => 3, startOf := fun _ => .noop }

def c5S0 : Eng :=
  { stores := [(0, initStore (.num 10)), (1, initStore (.num 20)),
      (2, initStore (.num 1)), (3, initStore .undef)],
    comps := [(0, initComp .undef)], context := none, queue := [], usubTable := [],
    nextUsub := 6, log := [], startLog := [], runLog := [], syncLog := [],
    drainDepth := 0, maxDrainDepth := 0 }

def c5S1 : Eng := (runSync c5Env 12 0 0 c5S0).1

/-!
Helper lemmas about the association-list operations and value equality.
-/

theorem jsStrictEq_self (x : JSVal) : jsStrictEq x x = true := by
  cases x <;> simp [jsStrictEq]

theorem eraseA_of_lookupA_none {κ α : Type} [DecidableEq κ] {k : κ} {l : List (κ × α)}
    (h : lookupA k l = none) : eraseA k l = l := by
  induction l with
  | nil => rfl
  | cons p rest ih =>
      obtain ⟨k2, b⟩ := p
      by_cases hk : k2 = k
      · simp [lookupA, hk] at h
      · simp only [lookupA, if_neg hk] at h
        simp [eraseA, hk, ih h]

theorem setA_of_lookupA_none {κ α : Type} [DecidableEq κ] {k : κ} {v : α} {l : List (κ × α)}
    (h : lookupA k l = none) : setA k v l = l ++ [(k, v)] := by
  induction l with
  | nil => rfl
  | cons p rest ih =>
      obtain ⟨k2, b⟩ := p
      by_cases hk : k2 = k
      · simp [lookupA, hk] at h
      · simp only [lookupA, if_neg hk] at h
        simp [setA, hk, ih h]

theorem setA_lookup_self {κ α : Type} [DecidableEq κ] {k : κ} {v : α} {l : List (κ × α)}
    (h : lookupA k l = some v) : setA k v l = l := by
  induction l with
  | nil => simp [lookupA] at h
  | cons p rest ih =>
      obtain ⟨k2, b⟩ := p
      by_cases hk : k2 = k
      · simp only [lookupA, if_pos hk] at h
        cases h
        simp [setA, hk]
      · simp only [lookupA, if_neg hk] at h
        simp [setA, hk, ih h]

theorem length_setA_of_lookupA_none {κ α : Type} [DecidableEq κ] {k : κ} {v : α}
    {l : List (κ × α)} (h : lookupA k l = none) : (setA k v l).length = l.length + 1 := by
  rw [setA_of_lookupA_none h]
  simp

theorem ne_nil_of_lookupA_isSome {κ α : Type} [DecidableEq κ] {k : κ} {l : List (κ × α)}
    (h : (lookupA k l).isSome = true) : l ≠ [] := by
  intro hnil
  subst hnil
  simp [lookupA] at h

theorem lookupA_not_mem_keys {κ α : Type} [DecidableEq κ] {k : κ} {l : List (κ × α)}
    (h : ¬ k ∈ l.map Prod.fst) : lookupA k l = none := by
  induction l with
  | nil => rfl
  | cons p rest ih =>
      obtain ⟨k2, b⟩ := p
      simp only [List.map_cons, List.mem_cons] at h
      push_neg at h
      have hne : ¬ k2 = k := fun he => h.1 he.symm
      simp only [lookupA, if_neg hne, ih h.2]

theorem lookupA_eraseA_self {κ α : Type} [DecidableEq κ] {k : κ} {l : List (κ × α)}
    (h : (l.map Prod.fst).Nodup) : lookupA k (eraseA k l) = none := by
  induction l with
  | nil => rfl
  | cons p rest ih =>
      obtain ⟨k2, b⟩ := p
      simp only [List.map_cons, List.nodup_cons] at h
      by_cases hk : k2 = k
      · simp only [eraseA, if_pos hk]
        subst hk
        exact lookupA_not_mem_keys h.1
      · simp only [eraseA, if_neg hk, lookupA, if_neg hk]
        exact ih h.2

/-!
Claim theorems.
-/

/-- C3: for every store, writing a value equal to the current value
under the container`s equality rule (the setEqJs test of set()) is a
complete no-op: the engine state -- stored value, subscriber maps, the
notification queue and all invocation logs -- is returned unchanged and
no subscriber is invoked. -/
theorem equal_write_is_noop (env : Env) (fuel : Nat) (sid : StoreId) (v : JSVal) (S : Eng)
    (h : setEqJs ((getStore S sid).value) v = true) :
    storeSet env (fuel+1) sid v S = (S, .ok ()) := by
  simp [storeSet, h]

/-- Witness for C3 at a concrete input. -/
theorem equal_write_is_noop_witness :
    setEqJs ((getStore (initEng [(0, initStore (.num 5))] []) 0).value) (.num 5) = true ∧
    storeSet plainEnv 1 0 (.num 5) (initEng [(0, initStore (.num 5))] []) =
      (initEng [(0, initStore (.num 5))] [], .ok ()) :=
  ⟨by decide, equal_write_is_noop plainEnv 0 0 (.num 5) (initEng [(0, initStore (.num 5))] [])
    (by decide)⟩

/-- C10: a write is a complete no-op not only when the new value is
reference-identical to the current one, but whenever both values pass
hasValueOf and their valueOf() results are strictly equal (e.g. two
distinct Date objects with the same timestamp). -/
theorem valueOf_equal_write_is_noop (env : Env) (fuel : Nat) (sid : StoreId) (w : JSVal) (S : Eng)
    (h1 : hasValueOf ((getStore S sid).value) = true)
    (h2 : hasValueOf w = true)
    (h3 : valueOfJS ((getStore S sid).value) = valueOfJS w) :
    storeSet env (fuel+1) sid w S = (S, .ok ()) := by
  have he : setEqJs ((getStore S sid).value) w = true := by
    simp [setEqJs, h1, h2, h3, jsStrictEq_self]
  simp [storeSet, he]

/-- Witness for C10: two distinct objects (different identities, so ===
is false) with the same valueOf result; the write is a no-op. -/
theorem valueOf_equal_write_is_noop_witness :
    jsStrictEq (.obj 1 (some 42)) (.obj 2 (some 42)) = false ∧
    storeSet plainEnv 1 0 (.obj 2 (some 42)) (initEng [(0, initStore (.obj 1 (some 42)))] []) =
      (initEng [(0, initStore (.obj 1 (some 42)))] [], .ok ()) :=
  ⟨by decide, valueOf_equal_write_is_noop plainEnv 0 0 (.obj 2 (some 42))
    (initEng [(0, initStore (.obj 1 (some 42)))] [])
    (by decide) (by decide) (by decide)⟩

/-- C8 counterexample: for a store whose only subscriber has
unsubscribed, calling the same unsubscribe function a second time (with
no intervening re-subscription) is not a no-op -- it invokes the nulled
stop handle and raises a TypeError, contradicting the claim that the
second call raises no error. -/
theorem double_unsubscribe_raises : c8Twice.2 = Outcome.err .typeError := by decide

/-- C8 amended: a second call of the same unsubscribe function never
changes the subscriber map and never runs a start or stop handle; it is
a complete no-op while the store still has other subscribers, but when
the first call removed the last subscriber (so the subscriber map is
empty and the stop handle was cleared to null), the second call invokes
the null stop handle and raises a TypeError. -/
theorem unsubscribe_second_call (env : Env) (fuel : Nat) (u : USub) (S : Eng)
    (sid : StoreId) (sub : SubId) (st : StoreSt)
    (ht : lookupA u S.usubTable = some (sid, sub))
    (hst : lookupA sid S.stores = some st)
    (hl : lookupA sub st.subs = none) :
    (st.subs ≠ [] → runUnsub env (fuel+1) u S = (S, .ok ())) ∧
    (st.subs = [] → st.stop = none →
      runUnsub env (fuel+1) u S = (S, .err .typeError)) := by
  have hget : getStore S sid = st := by simp [getStore, hst]
  have hsubs : (fun s2 => { s2 with subs := eraseA sub s2.subs }) (getStore S sid) = st := by
    rw [hget]
    show ({ st with subs := eraseA sub st.subs } : StoreSt) = st
    rw [eraseA_of_lookupA_none hl]
  have hS1 : updStore sid (fun s2 => { s2 with subs := eraseA sub s2.subs }) S = S := by
    unfold updStore
    rw [hsubs, setA_lookup_self hst]
  constructor
  · intro hne
    simp only [runUnsub, ht, hS1, hget]
    rw [if_neg (by simpa [List.isEmpty_iff] using hne)]
  · intro hnil hstop
    simp only [runUnsub, ht, hS1, hget]
    rw [if_pos (by simpa [List.isEmpty_iff] using hnil), hstop]

/-- Witness for C8 amended, at the concrete double-unsubscribe scenario:
the hypotheses hold after the first unsubscribe and the second call
raises the TypeError. -/
theorem unsubscribe_second_call_witness :
    lookupA c8U c8Once.usubTable = some (0, .ext 1) ∧
    lookupA 0 c8Once.stores = some { value := .num 0, subs := [], stop := none, started := false } ∧
    runUnsub plainEnv 30 c8U c8Once = (c8Once, .err .typeError) :=
  ⟨by decide, by decide,
    (unsubscribe_second_call plainEnv 29 c8U c8Once 0 (.ext 1)
      { value := .num 0, subs := [], stop := none, started := false }
      (by decide) (by decide) (by decide)).2 (by decide) (by decide)⟩

/-- Intermediate state of the C7 scenario after the first subscription
(the computed ran once, reading stores 0 and 1). -/
theorem c7_step1 : c7Sub1 =
    ({ stores := [(0, { value := .num 1, subs := [(.comp 0 1, 1, some (0, 1))],
                        stop := some .noop, started := false }),
                  (1, { value := .num 10, subs := [(.comp 0 1, 2, some (0, 1))],
                        stop := some .noop, started := false }),
                  (2, { value := .num 20, subs := [], stop := none, started := false }),
                  (3, { value := .num 10, subs := [(.ext 1, 0, none)],
                        stop := some (.compStop 0), started := false })],
       comps := [(0, { value := .num 10, unsubscribes := [1, 2], pending := 0, epoch := 1 })],
       context := none, queue := [],
       usubTable := [(0, 3, .ext 1), (1, 0, .comp 0 1), (2, 1, .comp 0 1)],
       nextUsub := 3, log := [(1, .num 10)], startLog := [], runLog := [(0, .num 10)],
       syncLog := [(0, 1, [0, 1])], drainDepth := 0, maxDrainDepth := 0 }, Outcome.ok 0) := by
  simp [c7Sub1, c7Init, c7Env, subscribeStore, storeGet,
    storeSet, runStart, runStop, runSync, runFinally, evalCExp, invokeSub, runUnsub, runUnsubs,
    queueRun, runQFn, runWrites, drainLoop, enqueueSubs, runInvalidate, updStore, updComp,
    getStore, getComp, ctxAccum, addIfAbsent, lookupA, setA, eraseA, setEqJs, jsStrictEq,
    hasValueOf, valueOfJS, jsAdd, initEng, initStore, initComp, dfltStore, dfltComp]

theorem c7_hU : c7U = 0 := by
  simp [c7U, c7_step1]

/-- Intermediate state of the C7 scenario after the unsubscribe: the
computed is dormant, the dependency stops are nulled, but the
unsubscribes set of the dead activation survives. -/
theorem c7_step2 : c7Dormant =
    { stores := [(0, { value := .num 1, subs := [], stop := none, started := false }),
                 (1, { value := .num 10, subs := [], stop := none, started := false }),
                 (2, { value := .num 20, subs := [], stop := none, started := false }),
                 (3, { value := .num 10, subs := [], stop := none, started := false })],
      comps := [(0, { value := .num 10, unsubscribes := [1, 2], pending := 0, epoch := 1 })],
      context := none, queue := [],
      usubTable := [(0, 3, .ext 1), (1, 0, .comp 0 1), (2, 1, .comp 0 1)],
      nextUsub := 3, log := [(1, .num 10)], startLog := [], runLog := [(0, .num 10)],
      syncLog := [(0, 1, [0, 1])], drainDepth := 0, maxDrainDepth := 0 } := by
  show (runUnsub c7Env 40 c7U c7Sub1.1).1 = _
  rw [c7_hU, c7_step1]
  decide

/-- Intermediate state of the C7 scenario after the silent write that
flips the condition store (no subscriber, so no delivery). -/
theorem c7_step3 : c7Switched =
    { stores := [(0, { value := .num 0, subs := [], stop := none, started := false }),
                 (1, { value := .num 10, subs := [], stop := none, started := false }),
                 (2, { value := .num 20, subs := [], stop := none, started := false }),
                 (3, { value := .num 10, subs := [], stop := none, started := false })],
      comps := [(0, { value := .num 10, unsubscribes := [1, 2], pending := 0, epoch := 1 })],
      context := none, queue := [],
      usubTable := [(0, 3, .ext 1), (1, 0, .comp 0 1), (2, 1, .comp 0 1)],
      nextUsub := 3, log := [(1, .num 10)], startLog := [], runLog := [(0, .num 10)],
      syncLog := [(0, 1, [0, 1])], drainDepth := 0, maxDrainDepth := 0 } := by
  show (storeSet c7Env 40 0 (.num 0) c7Dormant).1 = _
  rw [c7_step2]
  decide

/-- The revival subscription of the C7 scenario, run from the dormant
switched state: the tracked run reads stores 0 and 2, then the stale
unsubscribe closure 2 (store 1, dead subscriber) empties nothing but
finds store 1 without subscribers and invokes its null stop handle --
TypeError, leaving the context unrestored. -/
theorem c7_step4 : subscribeStore c7Env 40 3 (.ext 2) .undefA
    { stores := [(0, { value := .num 0, subs := [], stop := none, started := false }),
                 (1, { value := .num 10, subs := [], stop := none, started := false }),
                 (2, { value := .num 20, subs := [], stop := none, started := false }),
                 (3, { value := .num 10, subs := [], stop := none, started := false })],
      comps := [(0, { value := .num 10, unsubscribes := [1, 2], pending := 0, epoch := 1 })],
      context := none, queue := [],
      usubTable := [(0, 3, .ext 1), (1, 0, .comp 0 1), (2, 1, .comp 0 1)],
      nextUsub := 3, log := [(1, .num 10)], startLog := [], runLog := [(0, .num 10)],
      syncLog := [(0, 1, [0, 1])], drainDepth := 0, maxDrainDepth := 0 } =
    ({ stores := [(0, { value := .num 0, subs := [(.comp 0 2, 4, some (0, 2))],
                        stop := some .noop, started := false }),
                  (1, { value := .num 10, subs := [], stop := none, started := false }),
                  (2, { value := .num 20, subs := [(.comp 0 2, 5, some (0, 2))],
                        stop := some .noop, started := false }),
                  (3, { value := .num 10, subs := [(.ext 2, 3, none)],
                        stop := none, started := false })],
       comps := [(0, { value := .num 20, unsubscribes := [1, 2], pending := 0, epoch := 2 })],
       context := some ⟨0, 2, [4, 5], [0, 2]⟩,
       queue := [],
       usubTable := [(0, 3, .ext 1), (1, 0, .comp 0 1), (2, 1, .comp 0 1),
                     (3, 3, .ext 2), (4, 0, .comp 0 2), (5, 2, .comp 0 2)],
       nextUsub := 6, log := [(1, .num 10)], startLog := [], runLog := [(0, .num 10)],
       syncLog := [(0, 1, [0, 1])], drainDepth := 0, maxDrainDepth := 0 },
     Outcome.err .typeError) := by
  simp [c7Env, subscribeStore, storeGet,
    storeSet, runStart, runStop, runSync, runFinally, evalCExp, invokeSub, runUnsub, runUnsubs,
    queueRun, runQFn, runWrites, drainLoop, enqueueSubs, runInvalidate, updStore, updComp,
    getStore, getComp, ctxAccum, addIfAbsent, lookupA, setA, eraseA, setEqJs, jsStrictEq,
    hasValueOf, valueOfJS, jsAdd, initEng, initStore, initComp, dfltStore, dfltComp]

/-- C7, evaluated at the failing input: after a computed went dormant
and its condition store was flipped, re-subscribing runs the tracked
function to completion, but a stale unsubscribe closure of the previous
activation throws a TypeError inside the finally block (it invokes the
nulled stop handle of the dropped dependency, store 1) before the
context-restoring assignment, so the run exits with the ambient context
still holding the computed`s frame instead of the prior (empty) one,
and the new subscriber is never invoked. -/
theorem context_not_restored_on_revival :
    c7Switched.context = none ∧
    c7Revive.2 = Outcome.err .typeError ∧
    c7Revive.1.context = some ⟨0, 2, [4, 5], [0, 2]⟩ ∧
    c7Revive.1.log = [(1, .num 10)] := by
  have hdef : c7Revive = subscribeStore c7Env 40 3 (.ext 2) .undefA c7Switched := rfl
  rw [hdef, c7_step3, c7_step4]
  exact ⟨rfl, rfl, rfl, rfl⟩

/-- Intermediate state of the C6 scenario: the writer subscriber is
registered on store 0 (without an initial call), the external
subscriber on store 1 (with its initial call logged). -/
theorem c6_pre : c6Pre =
    { stores := [(0, { value := .num 0, subs := [(.writer 1 1 (.num 5), 0, none)],
                       stop := some .noop, started := false }),
                 (1, { value := .num 7, subs := [(.ext 2, 1, none)],
                       stop := some .noop, started := false })],
      comps := [], context := none, queue := [],
      usubTable := [(0, 0, .writer 1 1 (.num 5)), (1, 1, .ext 2)],
      nextUsub := 2, log := [(2, .num 7)], startLog := [], runLog := [],
      syncLog := [], drainDepth := 0, maxDrainDepth := 0 } := by
  show (subscribeStore plainEnv 30 1 (.ext 2) .undefA
    ((subscribeStore plainEnv 30 0 (.writer 1 1 (.num 5)) .noInit
      (initEng [(0, initStore (.num 0)), (1, initStore (.num 7))] [])).1)).1 = _
  have h1 : subscribeStore plainEnv 30 0 (.writer 1 1 (.num 5)) .noInit
      (initEng [(0, initStore (.num 0)), (1, initStore (.num 7))] []) =
    ({ stores := [(0, { value := .num 0, subs := [(.writer 1 1 (.num 5), 0, none)],
                        stop := some .noop, started := false }),
                  (1, { value := .num 7, subs := [], stop := none, started := false })],
       comps := [], context := none, queue := [],
       usubTable := [(0, 0, .writer 1 1 (.num 5))],
       nextUsub := 1, log := [], startLog := [], runLog := [],
       syncLog := [], drainDepth := 0, maxDrainDepth := 0 }, Outcome.ok 0) := by decide
  rw [h1]
  decide

/-- The C6 write evaluated from the prepared state: the writer fires
inside the first drain, its re-entrant write finds the queue empty and
nests a second drain (watermark 2); every notification is delivered and
the queue ends empty. -/
theorem c6_step : storeSet plainEnv 30 0 (.num 1)
    { stores := [(0, { value := .num 0, subs := [(.writer 1 1 (.num 5), 0, none)],
                       stop := some .noop, started := false }),
                 (1, { value := .num 7, subs := [(.ext 2, 1, none)],
                       stop := some .noop, started := false })],
      comps := [], context := none, queue := [],
      usubTable := [(0, 0, .writer 1 1 (.num 5)), (1, 1, .ext 2)],
      nextUsub := 2, log := [(2, .num 7)], startLog := [], runLog := [],
      syncLog := [], drainDepth := 0, maxDrainDepth := 0 } =
    ({ stores := [(0, { value := .num 1, subs := [(.writer 1 1 (.num 5), 0, none)],
                        stop := some .noop, started := false }),
                  (1, { value := .num 5, subs := [(.ext 2, 1, none)],
                        stop := some .noop, started := false })],
       comps := [], context := none, queue := [],
       usubTable := [(0, 0, .writer 1 1 (.num 5)), (1, 1, .ext 2)],
       nextUsub := 2, log := [(2, .num 7), (1, .num 1), (2, .num 5)], startLog := [],
       runLog := [], syncLog := [], drainDepth := 0, maxDrainDepth := 2 }, Outcome.ok ()) := by
  simp [plainEnv, subscribeStore, storeGet,
    storeSet, runStart, runStop, runSync, runFinally, evalCExp, invokeSub, runUnsub, runUnsubs,
    queueRun, runQFn, runWrites, drainLoop, enqueueSubs, runInvalidate, updStore, updComp,
    getStore, getComp, ctxAccum, addIfAbsent, lookupA, setA, eraseA, setEqJs, jsStrictEq,
    hasValueOf, valueOfJS, jsAdd, batchWrites, initEng, initStore, initComp, dfltStore, dfltComp]

/-- C6 counterexample: a write issued from inside a drain at the moment
the drain has just emptied the queue (its last entry popped) finds the
queue empty and starts a second, nested drain: the ghost drain-depth
watermark reaches 2, refuting the claim that at most one drain loop of
the notification queue runs at a time.  All notifications are still
delivered and the queue ends empty. -/
theorem nested_drain_occurs :
    c6Pre.maxDrainDepth = 0 ∧
    c6Run.2 = Outcome.ok () ∧
    c6Run.1.maxDrainDepth = 2 ∧
    c6Run.1.queue = [] ∧
    c6Run.1.log = [(2, .num 7), (1, .num 1), (2, .num 5)] := by
  have hdef : c6Run = storeSet plainEnv 30 0 (.num 1) c6Pre := rfl
  rw [hdef, c6_pre, c6_step]
  exact ⟨rfl, rfl, rfl, rfl, rfl⟩

/-- Intermediate state of the C2 store-engine scenario: one store with
one external subscriber, whose initial call is logged. -/
theorem c2_pre : c2Pre =
    { stores := [(0, { value := .num 0, subs := [(.ext 1, 0, none)],
                       stop := some .noop, started := false })],
      comps := [], context := none, queue := [],
      usubTable := [(0, 0, .ext 1)],
      nextUsub := 1, log := [(1, .num 0)], startLog := [], runLog := [],
      syncLog := [], drainDepth := 0, maxDrainDepth := 0 } := by
  show (subscribeStore plainEnv 30 0 (.ext 1) .undefA
    (initEng [(0, initStore (.num 0))] [])).1 = _
  decide

/-- The C2 store-engine batch evaluated from the prepared state: the
first write enqueues the subscriber with value 1, the second write
skips it (already pending), and the drain delivers 1. -/
theorem c2_step : batchWrites plainEnv 30 [(0, .num 1), (0, .num 2)]
    { stores := [(0, { value := .num 0, subs := [(.ext 1, 0, none)],
                       stop := some .noop, started := false })],
      comps := [], context := none, queue := [],
      usubTable := [(0, 0, .ext 1)],
      nextUsub := 1, log := [(1, .num 0)], startLog := [], runLog := [],
      syncLog := [], drainDepth := 0, maxDrainDepth := 0 } =
    ({ stores := [(0, { value := .num 2, subs := [(.ext 1, 0, none)],
                        stop := some .noop, started := false })],
       comps := [], context := none, queue := [],
       usubTable := [(0, 0, .ext 1)],
       nextUsub := 1, log := [(1, .num 0), (1, .num 1)], startLog := [], runLog := [],
       syncLog := [], drainDepth := 0, maxDrainDepth := 1 }, Outcome.ok ()) := by
  simp [plainEnv, subscribeStore, storeGet,
    storeSet, runStart, runStop, runSync, runFinally, evalCExp, invokeSub, runUnsub, runUnsubs,
    queueRun, runQFn, runWrites, drainLoop, enqueueSubs, runInvalidate, updStore, updComp,
    getStore, getComp, ctxAccum, addIfAbsent, lookupA, setA, eraseA, setEqJs, jsStrictEq,
    hasValueOf, valueOfJS, jsAdd, batchWrites, initEng, initStore, initComp, dfltStore, dfltComp]

/-- C2 counterexample: in the store engine, two writes to the same
store inside one batch leave the subscriber`s pending entry untouched
(the second write skips subscribers that are already pending, with no
delete-and-re-insert and no value update), so the subscriber is invoked
once with the value of the first write (1), not the most recent
value (2), which remains the stored value. -/
theorem stale_value_delivered :
    c2Run.2 = Outcome.ok () ∧
    c2Run.1.log = [(1, .num 0), (1, .num 1)] ∧
    (getStore c2Run.1 0).value = .num 2 := by
  have hdef : c2Run = batchWrites plainEnv 30 [(0, .num 1), (0, .num 2)] c2Pre := rfl
  rw [hdef, c2_pre, c2_step]
  exact ⟨rfl, rfl, rfl⟩

/-- Intermediate state of the C1 counterexample scenarios: the state
after subscribing to the sum of stores holding 1 and 2 (the initial run
computed 3 and delivered it to the external subscriber). -/
theorem c1_pre_concrete : c1Pre 1 2 =
    { stores := [(0, { value := .num 1, subs := [(.comp 0 1, 1, some (0, 1))],
                       stop := some .noop, started := false }),
                 (1, { value := .num 2, subs := [(.comp 0 1, 2, some (0, 1))],
                       stop := some .noop, started := false }),
                 (2, { value := .num 3, subs := [(.ext 1, 0, none)],
                       stop := some (.compStop 0), started := false })],
      comps := [(0, { value := .num 3, unsubscribes := [1, 2], pending := 0, epoch := 1 })],
      context := none, queue := [],
      usubTable := [(0, 2, .ext 1), (1, 0, .comp 0 1), (2, 1, .comp 0 1)],
      nextUsub := 3, log := [(1, .num 3)], startLog := [], runLog := [(0, .num 3)],
      syncLog := [(0, 1, [0, 1])], drainDepth := 0, maxDrainDepth := 0 } := by
  show (subscribeStore c1Env 30 2 (.ext 1) .undefA (c1Init 1 2)).1 = _
  simp [c1Env, c1Init, subscribeStore, storeGet,
    storeSet, runStart, runStop, runSync, runFinally, evalCExp, invokeSub, runUnsub, runUnsubs,
    queueRun, runQFn, runWrites, drainLoop, enqueueSubs, runInvalidate, updStore, updComp,
    getStore, getComp, ctxAccum, addIfAbsent, lookupA, setA, eraseA, setEqJs, jsStrictEq,
    hasValueOf, valueOfJS, jsAdd, initEng, initStore, initComp, dfltStore, dfltComp]

/-- The C1 batch of two no-op writes (the current values are written
back), evaluated from the prepared state: nothing is enqueued, the
computation does not re-run, the subscriber is not invoked. -/
theorem c1_cx_noop : batchWrites c1Env 30 [(0, .num 1), (1, .num 2)]
    { stores := [(0, { value := .num 1, subs := [(.comp 0 1, 1, some (0, 1))],
                       stop := some .noop, started := false }),
                 (1, { value := .num 2, subs := [(.comp 0 1, 2, some (0, 1))],
                       stop := some .noop, started := false }),
                 (2, { value := .num 3, subs := [(.ext 1, 0, none)],
                       stop := some (.compStop 0), started := false })],
      comps := [(0, { value := .num 3, unsubscribes := [1, 2], pending := 0, epoch := 1 })],
      context := none, queue := [],
      usubTable := [(0, 2, .ext 1), (1, 0, .comp 0 1), (2, 1, .comp 0 1)],
      nextUsub := 3, log := [(1, .num 3)], startLog := [], runLog := [(0, .num 3)],
      syncLog := [(0, 1, [0, 1])], drainDepth := 0, maxDrainDepth := 0 } =
    ({ stores := [(0, { value := .num 1, subs := [(.comp 0 1, 1, some (0, 1))],
                        stop := some .noop, started := false }),
                  (1, { value := .num 2, subs := [(.comp 0 1, 2, some (0, 1))],
                        stop := some .noop, started := false }),
                  (2, { value := .num 3, subs := [(.ext 1, 0, none)],
                        stop := some (.compStop 0), started := false })],
       comps := [(0, { value := .num 3, unsubscribes := [1, 2], pending := 0, epoch := 1 })],
       context := none, queue := [],
       usubTable := [(0, 2, .ext 1), (1, 0, .comp 0 1), (2, 1, .comp 0 1)],
       nextUsub := 3, log := [(1, .num 3)], startLog := [], runLog := [(0, .num 3)],
       syncLog := [(0, 1, [0, 1])], drainDepth := 0, maxDrainDepth := 1 }, Outcome.ok ()) := by
  decide

/-- The C1 batch that swaps the two values (both change, the sum does
not), evaluated from the prepared state: the computation re-runs
exactly once (one new run-log entry, result 3) but the equality rule
suppresses the output write, so the subscriber is not invoked. -/
theorem c1_cx_swap : batchWrites c1Env 30 [(0, .num 2), (1, .num 1)]
    { stores := [(0, { value := .num 1, subs := [(.comp 0 1, 1, some (0, 1))],
                       stop := some .noop, started := false }),
                 (1, { value := .num 2, subs := [(.comp 0 1, 2, some (0, 1))],
                       stop := some .noop, started := false }),
                 (2, { value := .num 3, subs := [(.ext 1, 0, none)],
                       stop := some (.compStop 0), started := false })],
      comps := [(0, { value := .num 3, unsubscribes := [1, 2], pending := 0, epoch := 1 })],
      context := none, queue := [],
      usubTable := [(0, 2, .ext 1), (1, 0, .comp 0 1), (2, 1, .comp 0 1)],
      nextUsub := 3, log := [(1, .num 3)], startLog := [], runLog := [(0, .num 3)],
      syncLog := [(0, 1, [0, 1])], drainDepth := 0, maxDrainDepth := 0 } =
    ({ stores := [(0, { value := .num 2, subs := [(.comp 0 1, 1, some (0, 1))],
                        stop := some .noop, started := false }),
                  (1, { value := .num 1, subs := [(.comp 0 1, 2, some (0, 1))],
                        stop := some .noop, started := false }),
                  (2, { value := .num 3, subs := [(.ext 1, 0, none)],
                        stop := some (.compStop 0), started := false })],
       comps := [(0, { value := .num 3, unsubscribes := [1, 2], pending := 0, epoch := 1 })],
       context := none, queue := [],
       usubTable := [(0, 2, .ext 1), (1, 0, .comp 0 1), (2, 1, .comp 0 1)],
       nextUsub := 3, log := [(1, .num 3)], startLog := [], runLog := [(0, .num 3), (0, .num 3)],
       syncLog := [(0, 1, [0, 1]), (0, 1, [0, 1])], drainDepth := 0, maxDrainDepth := 1 },
     Outcome.ok ()) := by
  simp [c1Env, subscribeStore, storeGet,
    storeSet, runStart, runStop, runSync, runFinally, evalCExp, invokeSub, runUnsub, runUnsubs,
    queueRun, runQFn, runWrites, drainLoop, enqueueSubs, runInvalidate, updStore, updComp,
    getStore, getComp, ctxAccum, addIfAbsent, lookupA, setA, eraseA, setEqJs, jsStrictEq,
    hasValueOf, valueOfJS, jsAdd, batchWrites, initEng, initStore, initComp, dfltStore, dfltComp]

/-- C1 counterexample: two corners refute the claim as stated.  Writing
the current values of both dependencies inside a batch (writes 1 and 2
over stored 1 and 2) causes zero re-runs of the computation, not
exactly one (the run log keeps only the initial run).  Writing values
that change both dependencies but leave the sum unchanged (1 to 2 and
2 to 1) causes exactly one re-run, but the derived`s subscriber is
invoked zero times, not exactly once (the output write is suppressed by
the equality rule). -/
theorem batch_rerun_counterexample :
    (c1Run 1 2 1 2).2 = Outcome.ok () ∧
    (c1Run 1 2 1 2).1.runLog = [(0, .num 3)] ∧
    (c1Run 1 2 2 1).2 = Outcome.ok () ∧
    (c1Run 1 2 2 1).1.runLog = [(0, .num 3), (0, .num 3)] ∧
    (c1Run 1 2 2 1).1.log = [(1, .num 3)] := by
  have hdef1 : c1Run 1 2 1 2 = batchWrites c1Env 30 [(0, .num 1), (1, .num 2)] (c1Pre 1 2) := rfl
  have hdef2 : c1Run 1 2 2 1 = batchWrites c1Env 30 [(0, .num 2), (1, .num 1)] (c1Pre 1 2) := rfl
  rw [hdef1, hdef2, c1_pre_concrete, c1_cx_noop, c1_cx_swap]
  exact ⟨rfl, rfl, rfl, rfl, rfl⟩

/-- The C1 prepared state for arbitrary initial values: subscribing to
the sum performs the initial run, which reads both stores. -/
theorem c1_pre_param (a0 b0 : Int) : c1Pre a0 b0 =
    { stores := [(0, { value := .num a0, subs := [(.comp 0 1, 1, some (0, 1))],
                       stop := some .noop, started := false }),
                 (1, { value := .num b0, subs := [(.comp 0 1, 2, some (0, 1))],
                       stop := some .noop, started := false }),
                 (2, { value := .num (a0+b0), subs := [(.ext 1, 0, none)],
                       stop := some (.compStop 0), started := false })],
      comps := [(0, { value := .num (a0+b0), unsubscribes := [1, 2], pending := 0, epoch := 1 })],
      context := none, queue := [],
      usubTable := [(0, 2, .ext 1), (1, 0, .comp 0 1), (2, 1, .comp 0 1)],
      nextUsub := 3, log := [(1, .num (a0+b0))], startLog := [], runLog := [(0, .num (a0+b0))],
      syncLog := [(0, 1, [0, 1])], drainDepth := 0, maxDrainDepth := 0 } := by
  show (subscribeStore c1Env 30 2 (.ext 1) .undefA (c1Init a0 b0)).1 = _
  simp [c1Env, c1Init, subscribeStore, storeGet,
    storeSet, runStart, runStop, runSync, runFinally, evalCExp, invokeSub, runUnsub, runUnsubs,
    queueRun, runQFn, runWrites, drainLoop, enqueueSubs, runInvalidate, updStore, updComp,
    getStore, getComp, ctxAccum, addIfAbsent, lookupA, setA, eraseA, setEqJs, jsStrictEq,
    hasValueOf, valueOfJS, jsAdd, initEng, initStore, initComp, dfltStore, dfltComp]

/-- The C1 batch evaluated symbolically when both writes change their
store and the sum changes: one re-run, one delivery of the new sum. -/
theorem c1_batch_ne (a0 b0 a1 b1 : Int) (ha : a0 ≠ a1) (hb : b0 ≠ b1) (hs : a0 + b0 ≠ a1 + b1) :
    batchWrites c1Env 30 [(0, .num a1), (1, .num b1)]
    { stores := [(0, { value := .num a0, subs := [(.comp 0 1, 1, some (0, 1))],
                       stop := some .noop, started := false }),
                 (1, { value := .num b0, subs := [(.comp 0 1, 2, some (0, 1))],
                       stop := some .noop, started := false }),
                 (2, { value := .num (a0+b0), subs := [(.ext 1, 0, none)],
                       stop := some (.compStop 0), started := false })],
      comps := [(0, { value := .num (a0+b0), unsubscribes := [1, 2], pending := 0, epoch := 1 })],
      context := none, queue := [],
      usubTable := [(0, 2, .ext 1), (1, 0, .comp 0 1), (2, 1, .comp 0 1)],
      nextUsub := 3, log := [(1, .num (a0+b0))], startLog := [], runLog := [(0, .num (a0+b0))],
      syncLog := [(0, 1, [0, 1])], drainDepth := 0, maxDrainDepth := 0 } =
    ({ stores := [(0, { value := .num a1, subs := [(.comp 0 1, 1, some (0, 1))],
                        stop := some .noop, started := false }),
                  (1, { value := .num b1, subs := [(.comp 0 1, 2, some (0, 1))],
                        stop := some .noop, started := false }),
                  (2, { value := .num (a1+b1), subs := [(.ext 1, 0, none)],
                        stop := some (.compStop 0), started := false })],
       comps := [(0, { value := .num (a1+b1), unsubscribes := [1, 2], pending := 0, epoch := 1 })],
       context := none, queue := [],
       usubTable := [(0, 2, .ext 1), (1, 0, .comp 0 1), (2, 1, .comp 0 1)],
       nextUsub := 3, log := [(1, .num (a0+b0)), (1, .num (a1+b1))], startLog := [],
       runLog := [(0, .num (a0+b0)), (0, .num (a1+b1))],
       syncLog := [(0, 1, [0, 1]), (0, 1, [0, 1])], drainDepth := 0, maxDrainDepth := 2 },
     Outcome.ok ()) := by
  simp [c1Env, subscribeStore, storeGet,
    storeSet, runStart, runStop, runSync, runFinally, evalCExp, invokeSub, runUnsub, runUnsubs,
    queueRun, runQFn, runWrites, drainLoop, enqueueSubs, runInvalidate, updStore, updComp,
    getStore, getComp, ctxAccum, addIfAbsent, lookupA, setA, eraseA, setEqJs, jsStrictEq,
    hasValueOf, valueOfJS, jsAdd, batchWrites, initEng, initStore, initComp, dfltStore, dfltComp,
    ha, hb, hs]

/-- The C1 batch evaluated symbolically when both writes change their
store but the sum is unchanged: one re-run, no delivery. -/
theorem c1_batch_eq (a0 b0 a1 b1 : Int) (ha : a0 ≠ a1) (hb : b0 ≠ b1) (hs : a0 + b0 = a1 + b1) :
    batchWrites c1Env 30 [(0, .num a1), (1, .num b1)]
    { stores := [(0, { value := .num a0, subs := [(.comp 0 1, 1, some (0, 1))],
                       stop := some .noop, started := false }),
                 (1, { value := .num b0, subs := [(.comp 0 1, 2, some (0, 1))],
                       stop := some .noop, started := false }),
                 (2, { value := .num (a0+b0), subs := [(.ext 1, 0, none)],
                       stop := some (.compStop 0), started := false })],
      comps := [(0, { value := .num (a0+b0), unsubscribes := [1, 2], pending := 0, epoch := 1 })],
      context := none, queue := [],
      usubTable := [(0, 2, .ext 1), (1, 0, .comp 0 1), (2, 1, .comp 0 1)],
      nextUsub := 3, log := [(1, .num (a0+b0))], startLog := [], runLog := [(0, .num (a0+b0))],
      syncLog := [(0, 1, [0, 1])], drainDepth := 0, maxDrainDepth := 0 } =
    ({ stores := [(0, { value := .num a1, subs := [(.comp 0 1, 1, some (0, 1))],
                        stop := some .noop, started := false }),
                  (1, { value := .num b1, subs := [(.comp 0 1, 2, some (0, 1))],
                        stop := some .noop, started := false }),
                  (2, { value := .num (a0+b0), subs := [(.ext 1, 0, none)],
                        stop := some (.compStop 0), started := false })],
       comps := [(0, { value := .num (a1+b1), unsubscribes := [1, 2], pending := 0, epoch := 1 })],
       context := none, queue := [],
       usubTable := [(0, 2, .ext 1), (1, 0, .comp 0 1), (2, 1, .comp 0 1)],
       nextUsub := 3, log := [(1, .num (a0+b0))], startLog := [],
       runLog := [(0, .num (a0+b0)), (0, .num (a1+b1))],
       syncLog := [(0, 1, [0, 1]), (0, 1, [0, 1])], drainDepth := 0, maxDrainDepth := 1 },
     Outcome.ok ()) := by
  simp [c1Env, subscribeStore, storeGet,
    storeSet, runStart, runStop, runSync, runFinally, evalCExp, invokeSub, runUnsub, runUnsubs,
    queueRun, runQFn, runWrites, drainLoop, enqueueSubs, runInvalidate, updStore, updComp,
    getStore, getComp, ctxAccum, addIfAbsent, lookupA, setA, eraseA, setEqJs, jsStrictEq,
    hasValueOf, valueOfJS, jsAdd, batchWrites, initEng, initStore, initComp, dfltStore, dfltComp,
    ha, hb, hs]

/-- C1 amended: writing to both dependencies of a derived computation
inside one batch, with values that actually change both stores, makes
the compute function re-run exactly once after the batch (one new
run-log entry), and that single run reads both stores and produces the
sum of the two new values (so it observes both new values, never a
mix); the derived`s subscriber is then invoked exactly once with the
resulting value provided the result differs from the prior output, and
not at all when the result is equal to it (the output write is a no-op
under the equality rule). -/
theorem batch_single_rerun (a0 b0 a1 b1 : Int) (ha : a0 ≠ a1) (hb : b0 ≠ b1) :
    (c1Run a0 b0 a1 b1).2 = Outcome.ok () ∧
    (c1Run a0 b0 a1 b1).1.runLog = [(0, .num (a0+b0)), (0, .num (a1+b1))] ∧
    (c1Run a0 b0 a1 b1).1.syncLog = [(0, 1, [0, 1]), (0, 1, [0, 1])] ∧
    (a0 + b0 ≠ a1 + b1 →
      (c1Run a0 b0 a1 b1).1.log = [(1, .num (a0+b0)), (1, .num (a1+b1))]) ∧
    (a0 + b0 = a1 + b1 → (c1Run a0 b0 a1 b1).1.log = [(1, .num (a0+b0))]) := by
  have hdef : c1Run a0 b0 a1 b1 =
      batchWrites c1Env 30 [(0, .num a1), (1, .num b1)] (c1Pre a0 b0) := rfl
  by_cases hs : a0 + b0 = a1 + b1
  · rw [hdef, c1_pre_param, c1_batch_eq a0 b0 a1 b1 ha hb hs]
    exact ⟨rfl, rfl, rfl, fun hne => absurd hs hne, fun _ => rfl⟩
  · rw [hdef, c1_pre_param, c1_batch_ne a0 b0 a1 b1 ha hb hs]
    exact ⟨rfl, rfl, rfl, fun _ => rfl, fun he => absurd he hs⟩

/-- Witness for C1 amended. -/
theorem batch_single_rerun_witness :
    (1:Int) ≠ 10 ∧ (2:Int) ≠ 20 ∧ (1+2:Int) ≠ 10+20 ∧
    (c1Run 1 2 10 20).1.runLog = [(0, .num 3), (0, .num 30)] ∧
    (c1Run 1 2 10 20).1.log = [(1, .num 3), (1, .num 30)] :=
  ⟨by decide, by decide, by decide,
    (batch_single_rerun 1 2 10 20 (by decide) (by decide)).2.1,
    (batch_single_rerun 1 2 10 20 (by decide) (by decide)).2.2.2.1 (by decide)⟩

/-- queue() drains only when it finds the subscriber queue empty: a
call that finds it non-empty just runs its callback on the same queue. -/
theorem queue_nonempty_no_drain (env : Env) (fuel : Nat) (f : QFn) (b : Bool) (S : Eng)
    (h : S.queue ≠ []) :
    queueRun env (fuel+1) f b S = runQFn env fuel f S := by
  have hq : S.queue.isEmpty = false := by
    cases hqq : S.queue with
    | nil => exact absurd hqq h
    | cons p rest => rfl
  simp only [queueRun, hq, Bool.false_and, Bool.false_eq_true, if_false]
  cases hr : runQFn env fuel f S with
  | mk S2 r =>
      cases r with
      | ok a => cases a; simp
      | err e => simp

/-- C6 amended: only a write (or batch) that finds the pending queue
empty drains it, and a write that finds the queue non-empty only
enqueues into the same queue without starting a drain; however, a write
issued from inside a drain at the moment the drain has just emptied the
queue (the last entry is deleted before its subscriber is invoked)
finds the queue empty and starts a second, nested drain.  Every entry,
including ones added re-entrantly, is still delivered, and the queue is
empty when the outermost drain finishes. -/
theorem single_drain_amended :
    (∀ (env : Env) (fuel : Nat) (f : QFn) (b : Bool) (S : Eng), S.queue ≠ [] →
        queueRun env (fuel+1) f b S = runQFn env fuel f S) ∧
    (c6Run.2 = Outcome.ok () ∧ c6Run.1.queue = [] ∧
     c6Run.1.log = [(2, .num 7), (1, .num 1), (2, .num 5)] ∧ c6Run.1.maxDrainDepth = 2) := by
  constructor
  · exact queue_nonempty_no_drain
  · have hdef : c6Run = storeSet plainEnv 30 0 (.num 1) c6Pre := rfl
    rw [hdef, c6_pre, c6_step]
    exact ⟨rfl, rfl, rfl, rfl⟩

/-- Witness for C6 amended: a queue holding the batch sentinel is not
drained by a further call of queue(). -/
theorem single_drain_amended_witness :
    ({ initEng [] [] with queue := [(.noopS, .undef)] } : Eng).queue ≠ [] ∧
    queueRun plainEnv 1 (.enq 0) false { initEng [] [] with queue := [(.noopS, .undef)] } =
      runQFn plainEnv 0 (.enq 0) { initEng [] [] with queue := [(.noopS, .undef)] } :=
  ⟨by decide, single_drain_amended.1 plainEnv 0 (.enq 0) false
    { initEng [] [] with queue := [(.noopS, .undef)] } (by decide)⟩

/-- Map.get after Map.set of the same key. -/
theorem lookupA_setA_self {κ α : Type} [DecidableEq κ] {k : κ} {v : α} {l : List (κ × α)} :
    lookupA k (setA k v l) = some v := by
  induction l with
  | nil => simp [setA, lookupA]
  | cons p rest ih =>
      obtain ⟨k2, b⟩ := p
      by_cases hk : k2 = k
      · simp [setA, lookupA, hk]
      · simp [setA, lookupA, hk, ih]

/-- Updating an atom and reading it back. -/
theorem getAtom_updAtom (aid : StoreId) (f : AtomSt → AtomSt) (S : AEng) :
    getAtom (updAtom aid f S) aid = f (getAtom S aid) := by
  simp [getAtom, updAtom, lookupA_setA_self]

/-- The write branch of atom() on an atom with one subscriber that is
already pending in the queue: the pending entry is deleted and
re-inserted at the tail of the queue with the new value (and no
invalidator is called). -/
theorem atom_write_promotes_to_tail (env : AEnv) (fuel : Nat) (aid : StoreId) (v : JSVal)
    (S : AEng) (at0 : AtomSt) (sub : ASub) (u : USub) (inv : Option Nat)
    (hat : lookupA aid S.atoms = some at0)
    (hsubs : at0.subs = [(sub, (u, inv))])
    (hne : jsStrictEq at0.value v = false)
    (hstop : at0.stop.isSome = true)
    (hq : (lookupA sub S.queue).isSome = true)
    (hnd : (S.queue.map Prod.fst).Nodup) :
    atomSet env (fuel+1) aid v S =
      ({ S with atoms := setA aid { at0 with value := v } S.atoms,
                queue := eraseA sub S.queue ++ [(sub, v)] }, .ok ()) := by
  have hga : getAtom S aid = at0 := by simp [getAtom, hat]
  have hqne : S.queue.isEmpty = false := by
    cases hqq : S.queue with
    | nil => rw [hqq] at hq; simp [lookupA] at hq
    | cons p rest => rfl
  have hsetn : setA sub v (eraseA sub S.queue) = eraseA sub S.queue ++ [(sub, v)] :=
    setA_of_lookupA_none (lookupA_eraseA_self hnd)
  simp only [atomSet, hga, hne, Bool.false_eq_true, if_false, updAtom, getAtom_updAtom,
    getAtom, hat, Option.getD_some, hstop, atomEnqueue, hsubs, List.foldl_cons, List.foldl_nil,
    lookupA_setA_self, hq, if_true, hqne, hsetn]

/-- Updating a computed does not change any store. -/
theorem getStore_updComp (sid : StoreId) (c : CompId) (f : CompSt → CompSt) (S : Eng) :
    getStore (updComp c f S) sid = getStore S sid := by
  simp [getStore, updComp]

/-- The invalidate closure of a computed in the store engine: it bumps
the pending counter and moves the computed`s downstream subscriber
(already pending in the queue) to the tail, keeping its pending value. -/
theorem invalidate_promotes_to_tail (env : Env) (c : CompId) (e : Nat) (S : Eng)
    (sub : SubId) (p : USub × Option (CompId × Nat)) (w : JSVal)
    (he : (getComp S c).epoch = e)
    (hos : (getStore S (env.compOut c)).subs = [(sub, p)])
    (hqs : lookupA sub S.queue = some w)
    (hnd : (S.queue.map Prod.fst).Nodup) :
    runInvalidate env c e S =
      { updComp c (fun cs => { cs with pending := cs.pending + 1 }) S with
        queue := eraseA sub S.queue ++ [(sub, w)] } := by
  have hlen : 1 ≤ S.queue.length := by
    cases hqq : S.queue with
    | nil => rw [hqq] at hqs; simp [lookupA] at hqs
    | cons q rest => simp
  have hsetn : setA sub w (eraseA sub S.queue) = eraseA sub S.queue ++ [(sub, w)] :=
    setA_of_lookupA_none (lookupA_eraseA_self hnd)
  have hos2 : ((lookupA (env.compOut c) S.stores).getD dfltStore).subs = [(sub, p)] := hos
  simp [runInvalidate, updComp, getStore, he, hos2, hlen, hqs, hsetn]

/-- C2 atom scenario staging: first writer subscription. -/
theorem c2a_subA (b0 v1 : Int) :
    atomSubscribe c2aEnv 30 0 (.writer 1 1 (.num v1)) (some 11) (c2aInit b0) =
    ({ atoms := [(0, { value := .num 0, subs := [(.writer 1 1 (.num v1), 0, some 11)],
                       stop := some .noopA, started := false }),
                 (1, { value := .num b0, subs := [], stop := none, started := false })],
       queue := [], ausubTable := [(0, 0, .writer 1 1 (.num v1))],
       nextUsub := 1, log := [], invLog := [], startLog := [] }, Outcome.ok 0) := by
  simp [c2aEnv, c2aInit, atomSubscribe, atomInvoke, atomSet, atomDrain, atomEnqueue,
    updAtom, getAtom, lookupA, setA, eraseA, jsStrictEq, initAEng, initAtom, dfltAtom]

/-- C2 atom scenario staging: second writer subscription. -/
theorem c2a_subB (b0 v1 v2 : Int) :
    atomSubscribe c2aEnv 30 0 (.writer 2 1 (.num v2)) (some 12)
    { atoms := [(0, { value := .num 0, subs := [(.writer 1 1 (.num v1), 0, some 11)],
                      stop := some .noopA, started := false }),
                (1, { value := .num b0, subs := [], stop := none, started := false })],
      queue := [], ausubTable := [(0, 0, .writer 1 1 (.num v1))],
      nextUsub := 1, log := [], invLog := [], startLog := [] } =
    ({ atoms := [(0, { value := .num 0,
                       subs := [(.writer 1 1 (.num v1), 0, some 11), (.writer 2 1 (.num v2), 1, some 12)],
                       stop := some .noopA, started := false }),
                 (1, { value := .num b0, subs := [], stop := none, started := false })],
       queue := [], ausubTable := [(0, 0, .writer 1 1 (.num v1)), (1, 0, .writer 2 1 (.num v2))],
       nextUsub := 2, log := [], invLog := [], startLog := [] }, Outcome.ok 1) := by
  simp [c2aEnv, atomSubscribe, atomInvoke, atomSet, atomDrain, atomEnqueue,
    updAtom, getAtom, lookupA, setA, eraseA, jsStrictEq, dfltAtom]

/-- C2 atom scenario staging: prepared state after all subscriptions. -/
theorem c2a_pre (b0 v1 v2 : Int) : c2aPre b0 v1 v2 =
    { atoms := [(0, { value := .num 0,
                      subs := [(.writer 1 1 (.num v1), 0, some 11), (.writer 2 1 (.num v2), 1, some 12)],
                      stop := some .noopA, started := false }),
                (1, { value := .num b0, subs := [(.ext 3, 2, none)],
                      stop := some .noopA, started := false })],
      queue := [],
      ausubTable := [(0, 0, .writer 1 1 (.num v1)), (1, 0, .writer 2 1 (.num v2)), (2, 1, .ext 3)],
      nextUsub := 3, log := [(3, .num b0)], invLog := [], startLog := [] } := by
  show (atomSubscribe c2aEnv 30 1 (.ext 3) none
    ((atomSubscribe c2aEnv 30 0 (.writer 2 1 (.num v2)) (some 12)
      ((atomSubscribe c2aEnv 30 0 (.writer 1 1 (.num v1)) (some 11) (c2aInit b0)).1)).1)).1 = _
  rw [c2a_subA b0 v1]
  show (atomSubscribe c2aEnv 30 1 (.ext 3) none
    ((atomSubscribe c2aEnv 30 0 (.writer 2 1 (.num v2)) (some 12) _).1)).1 = _
  rw [c2a_subB b0 v1 v2]
  simp [c2aEnv, atomSubscribe, atomInvoke, atomSet, atomDrain, atomEnqueue,
    updAtom, getAtom, lookupA, setA, eraseA, jsStrictEq, dfltAtom]

/-- The C2 atom scenario evaluated symbolically: the write to atom 0
fires both writers inside the drain; the second write to atom 1 finds
the external subscriber pending, deletes and re-inserts it at the tail
with the newest value, and the drain delivers that value exactly once. -/
theorem c2a_run (b0 v1 v2 x : Int) (hx : (0:Int) ≠ x) (hv1 : b0 ≠ v1) (hv2 : v1 ≠ v2) :
    c2aRun b0 v1 v2 x =
    ({ atoms := [(0, { value := .num x,
                       subs := [(.writer 1 1 (.num v1), 0, some 11), (.writer 2 1 (.num v2), 1, some 12)],
                       stop := some .noopA, started := false }),
                 (1, { value := .num v2, subs := [(.ext 3, 2, none)],
                       stop := some .noopA, started := false })],
       queue := [],
       ausubTable := [(0, 0, .writer 1 1 (.num v1)), (1, 0, .writer 2 1 (.num v2)), (2, 1, .ext 3)],
       nextUsub := 3, log := [(3, .num b0), (1, .num x), (2, .num x), (3, .num v2)],
       invLog := [11, 12], startLog := [] }, Outcome.ok ()) := by
  have hdef : c2aRun b0 v1 v2 x = atomSet c2aEnv 30 0 (.num x) (c2aPre b0 v1 v2) := rfl
  rw [hdef, c2a_pre]
  simp [c2aEnv, atomSet, atomDrain, atomInvoke, atomEnqueue,
    updAtom, getAtom, lookupA, setA, eraseA, jsStrictEq, dfltAtom, hx, hv1, hv2]

/-- C2 amended: in the atom engine, a write that enqueues a subscriber
which already has a pending entry deletes that entry and re-inserts it
at the tail of the queue with the new value, so the subscriber is
eventually invoked once with the most recent value (first and third
conjuncts).  In the store engine a write skips already-pending
subscribers entirely (see the counterexample); there, tail promotion is
performed by a computed store`s invalidate callback, which moves the
computed`s downstream subscribers to the tail with their pending
values (second conjunct). -/
theorem tail_promotion_amended :
    (∀ (env : AEnv) (fuel : Nat) (aid : StoreId) (v : JSVal) (S : AEng) (at0 : AtomSt)
        (sub : ASub) (u : USub) (inv : Option Nat),
      lookupA aid S.atoms = some at0 → at0.subs = [(sub, (u, inv))] →
      jsStrictEq at0.value v = false → at0.stop.isSome = true →
      (lookupA sub S.queue).isSome = true → (S.queue.map Prod.fst).Nodup →
      atomSet env (fuel+1) aid v S =
        ({ S with atoms := setA aid { at0 with value := v } S.atoms,
                  queue := eraseA sub S.queue ++ [(sub, v)] }, .ok ())) ∧
    (∀ (env : Env) (c : CompId) (e : Nat) (S : Eng) (sub : SubId)
        (p : USub × Option (CompId × Nat)) (w : JSVal),
      (getComp S c).epoch = e → (getStore S (env.compOut c)).subs = [(sub, p)] →
      lookupA sub S.queue = some w → (S.queue.map Prod.fst).Nodup →
      runInvalidate env c e S =
        { updComp c (fun cs => { cs with pending := cs.pending + 1 }) S with
          queue := eraseA sub S.queue ++ [(sub, w)] }) ∧
    (∀ b0 v1 v2 x : Int, (0:Int) ≠ x → b0 ≠ v1 → v1 ≠ v2 →
      (c2aRun b0 v1 v2 x).2 = Outcome.ok () ∧
      (c2aRun b0 v1 v2 x).1.log = [(3, .num b0), (1, .num x), (2, .num x), (3, .num v2)] ∧
      (getAtom (c2aRun b0 v1 v2 x).1 1).value = .num v2) := by
  refine ⟨atom_write_promotes_to_tail, invalidate_promotes_to_tail, ?_⟩
  intro b0 v1 v2 x hx hv1 hv2
  rw [c2a_run b0 v1 v2 x hx hv1 hv2]
  exact ⟨rfl, rfl, by simp [getAtom, lookupA]⟩

/-- Witness for C2 amended at concrete inputs: the atom scenario
delivers the latest value once; a concrete pending entry is promoted to
the tail by an atom write and by a computed invalidate. -/
theorem tail_promotion_amended_witness :
    (c2aRun 7 100 200 1).2 = Outcome.ok () ∧
    (c2aRun 7 100 200 1).1.log =
      [(3, .num 7), (1, .num 1), (2, .num 1), (3, .num 200)] ∧
    atomSet c2aEnv 1 0 (.num 1)
      { atoms := [(0, { value := .num 0, subs := [(.ext 9, 0, none)],
                        stop := some .noopA, started := false })],
        queue := [(.ext 9, .undef)], ausubTable := [(0, 0, .ext 9)],
        nextUsub := 1, log := [], invLog := [], startLog := [] } =
      ({ atoms := [(0, { value := .num 1, subs := [(.ext 9, 0, none)],
                         stop := some .noopA, started := false })],
         queue := [(.ext 9, .num 1)], ausubTable := [(0, 0, .ext 9)],
         nextUsub := 1, log := [], invLog := [], startLog := [] }, Outcome.ok ()) ∧
    runInvalidate c1Env 0 0
      { stores := [(2, { value := .undef, subs := [(.ext 9, 0, none)],
                         stop := some .noop, started := false })],
        comps := [(0, initComp .undef)], context := none,
        queue := [(.ext 9, .num 7)], usubTable := [(0, 2, .ext 9)], nextUsub := 1,
        log := [], startLog := [], runLog := [], syncLog := [],
        drainDepth := 0, maxDrainDepth := 0 } =
      { stores := [(2, { value := .undef, subs := [(.ext 9, 0, none)],
                         stop := some .noop, started := false })],
        comps := [(0, { value := .undef, unsubscribes := [], pending := 1, epoch := 0 })],
        context := none,
        queue := [(.ext 9, .num 7)], usubTable := [(0, 2, .ext 9)], nextUsub := 1,
        log := [], startLog := [], runLog := [], syncLog := [],
        drainDepth := 0, maxDrainDepth := 0 } := by
  refine ⟨(tail_promotion_amended.2.2 7 100 200 1 (by decide) (by decide) (by decide)).1,
    (tail_promotion_amended.2.2 7 100 200 1 (by decide) (by decide) (by decide)).2.1, ?_, ?_⟩
  · have h := tail_promotion_amended.1 c2aEnv 0 0 (.num 1)
      { atoms := [(0, { value := .num 0, subs := [(.ext 9, 0, none)],
                        stop := some .noopA, started := false })],
        queue := [(.ext 9, .undef)], ausubTable := [(0, 0, .ext 9)],
        nextUsub := 1, log := [], invLog := [], startLog := [] }
      { value := .num 0, subs := [(.ext 9, 0, none)], stop := some .noopA, started := false }
      (.ext 9) 0 none (by decide) (by decide) (by decide) (by decide) (by decide) (by decide)
    rw [h]
    decide
  · have h := tail_promotion_amended.2.1 c1Env 0 0
      { stores := [(2, { value := .undef, subs := [(.ext 9, 0, none)],
                         stop := some .noop, started := false })],
        comps := [(0, initComp .undef)], context := none,
        queue := [(.ext 9, .num 7)], usubTable := [(0, 2, .ext 9)], nextUsub := 1,
        log := [], startLog := [], runLog := [], syncLog := [],
        drainDepth := 0, maxDrainDepth := 0 }
      (.ext 9) (0, none) (.num 7) (by decide) (by decide) (by decide) (by decide)
    rw [h]
    decide

/-- Updating a store and reading it back. -/
theorem getStore_updStore (sid : StoreId) (f : StoreSt → StoreSt) (S : Eng) :
    getStore (updStore sid f S) sid = f (getStore S sid) := by
  simp [getStore, updStore, lookupA_setA_self]

/-- subscribe() on a store that already has subscribers never runs the
start function (no new start event), for any second argument. -/
theorem subscribe_active_no_restart (env : Env) (fuel : Nat) (sid : StoreId) (n : Nat)
    (invArg : InvArg) (S : Eng) (hne : (getStore S sid).subs ≠ []) :
    (subscribeStore env (fuel+2) sid (.ext n) invArg S).1.startLog = S.startLog := by
  have hne2 : ((lookupA sid S.stores).getD dfltStore).subs ≠ [] := hne
  cases hlu : lookupA (.ext n) ((lookupA sid S.stores).getD dfltStore).subs with
  | some p =>
      simp [subscribeStore, getStore, hlu]
  | none =>
      have hpos : ¬ ((lookupA sid S.stores).getD dfltStore).subs.length = 0 := by
        intro h0
        exact hne2 (List.length_eq_zero.mp h0)
      have hlen : ∀ q : USub × Option (CompId × Nat),
          (setA (SubId.ext n) q ((lookupA sid S.stores).getD dfltStore).subs).length =
          ((lookupA sid S.stores).getD dfltStore).subs.length + 1 :=
        fun q => length_setA_of_lookupA_none hlu
      cases invArg with
      | undefA =>
          simp [subscribeStore, invokeSub, updStore, getStore, lookupA_setA_self, hlu, hlen, hpos]
      | noInit =>
          simp [subscribeStore, invokeSub, updStore, getStore, lookupA_setA_self, hlu, hlen, hpos]
      | inval c e =>
          simp [subscribeStore, invokeSub, updStore, getStore, lookupA_setA_self, hlu, hlen, hpos]

/-- Map.set twice with the same key. -/
theorem setA_setA {κ α : Type} [DecidableEq κ] {k : κ} {a b : α} {l : List (κ × α)} :
    setA k a (setA k b l) = setA k a l := by
  induction l with
  | nil => simp [setA]
  | cons p rest ih =>
      obtain ⟨k2, c⟩ := p
      by_cases hk : k2 = k
      · simp [setA, hk]
      · simp [setA, hk, ih]

/-- get() on a store that has subscribers (outside any tracking
context) is pure: it returns the value and changes nothing, in
particular it does not run the start function. -/
theorem get_active_no_restart (env : Env) (fuel : Nat) (sid : StoreId) (S : Eng)
    (hne : (getStore S sid).subs ≠ []) (hctx : S.context = none) :
    storeGet env (fuel+1) sid S = (S, .ok (getStore S sid).value) := by
  have hq : (getStore S sid).subs.isEmpty = false := by
    cases hqq : (getStore S sid).subs with
    | nil => exact absurd hqq hne
    | cons p rest => rfl
  simp [storeGet, hctx, hq]

/-- Unsubscribing the last subscriber runs the stop handle (the
cleanup the start function returned) exactly once -- exactly one stop
event is appended -- and clears the subscriber map and the stop slot. -/
theorem last_unsubscribe_stops_once (env : Env) (fuel : Nat) (u : USub) (S : Eng)
    (sid : StoreId) (sub : SubId) (p : USub × Option (CompId × Nat)) (k : Nat)
    (ht : lookupA u S.usubTable = some (sid, sub))
    (hsubs : (getStore S sid).subs = [(sub, p)])
    (hstop : (getStore S sid).stop = some (.userStop k)) :
    (runUnsub env (fuel+2) u S).2 = .ok () ∧
    (runUnsub env (fuel+2) u S).1.startLog = S.startLog ++ [(false, k)] ∧
    (getStore (runUnsub env (fuel+2) u S).1 sid).subs = [] ∧
    (getStore (runUnsub env (fuel+2) u S).1 sid).stop = none := by
  have hsubs2 : ((lookupA sid S.stores).getD dfltStore).subs = [(sub, p)] := hsubs
  have hstop2 : ((lookupA sid S.stores).getD dfltStore).stop = some (.userStop k) := hstop
  refine ⟨?_, ?_, ?_, ?_⟩ <;>
    simp [runUnsub, runStop, updStore, getStore, lookupA_setA_self, ht, hsubs2, hstop2,
      eraseA]

/-- subscribe() on a store with no subscribers runs the start function
exactly once (exactly one start event is appended) and stores its
cleanup as the stop handle -- this covers both the first subscription
and a re-subscription after the store went dormant. -/
theorem fresh_subscribe_starts_once (env : Env) (fuel : Nat) (sid : StoreId) (n : Nat)
    (invArg : InvArg) (S : Eng) (k : Nat)
    (hempty : (getStore S sid).subs = [])
    (hstart : env.startOf sid = .user k) :
    (subscribeStore env (fuel+2) sid (.ext n) invArg S).1.startLog = S.startLog ++ [(true, k)] ∧
    (getStore (subscribeStore env (fuel+2) sid (.ext n) invArg S).1 sid).stop =
      some (.userStop k) := by
  have hempty2 : ((lookupA sid S.stores).getD dfltStore).subs = [] := hempty
  cases invArg with
  | undefA =>
      constructor <;>
      · simp only [subscribeStore, hempty2, lookupA, setA, hstart]
        simp [runStart, invokeSub, updStore, getStore, lookupA, setA, lookupA_setA_self,
          setA_setA, hempty2]
  | noInit =>
      constructor <;>
      · simp only [subscribeStore, hempty2, lookupA, setA, hstart]
        simp [runStart, invokeSub, updStore, getStore, lookupA, setA, lookupA_setA_self,
          setA_setA, hempty2]
  | inval c e =>
      constructor <;>
      · simp only [subscribeStore, hempty2, lookupA, setA, hstart]
        simp [runStart, invokeSub, updStore, getStore, lookupA, setA, lookupA_setA_self,
          setA_setA, hempty2]

/-- C4: the start function runs at most once while the subscriber
count is positive (neither subscribe() nor get() on a store with
subscribers emits a start event); when the last subscriber
unsubscribes, the cleanup returned by start runs exactly once and the
stop handle is cleared; and subscribing again afterwards re-invokes the
start function exactly once. -/
theorem start_stop_lifecycle :
    (∀ (env : Env) (fuel : Nat) (sid : StoreId) (n : Nat) (invArg : InvArg) (S : Eng),
       (getStore S sid).subs ≠ [] →
       (subscribeStore env (fuel+2) sid (.ext n) invArg S).1.startLog = S.startLog) ∧
    (∀ (env : Env) (fuel : Nat) (sid : StoreId) (S : Eng),
       (getStore S sid).subs ≠ [] → S.context = none →
       storeGet env (fuel+1) sid S = (S, .ok (getStore S sid).value)) ∧
    (∀ (env : Env) (fuel : Nat) (u : USub) (S : Eng) (sid : StoreId) (sub : SubId)
       (p : USub × Option (CompId × Nat)) (k : Nat),
       lookupA u S.usubTable = some (sid, sub) →
       (getStore S sid).subs = [(sub, p)] → (getStore S sid).stop = some (.userStop k) →
       (runUnsub env (fuel+2) u S).2 = .ok () ∧
       (runUnsub env (fuel+2) u S).1.startLog = S.startLog ++ [(false, k)] ∧
       (getStore (runUnsub env (fuel+2) u S).1 sid).subs = [] ∧
       (getStore (runUnsub env (fuel+2) u S).1 sid).stop = none) ∧
    (∀ (env : Env) (fuel : Nat) (sid : StoreId) (n : Nat) (invArg : InvArg) (S : Eng) (k : Nat),
       (getStore S sid).subs = [] → env.startOf sid = .user k →
       (subscribeStore env (fuel+2) sid (.ext n) invArg S).1.startLog =
         S.startLog ++ [(true, k)] ∧
       (getStore (subscribeStore env (fuel+2) sid (.ext n) invArg S).1 sid).stop =
         some (.userStop k)) :=
  ⟨subscribe_active_no_restart, get_active_no_restart, last_unsubscribe_stops_once,
    fresh_subscribe_starts_once⟩

/-- Witness for C4 at concrete inputs: a fresh subscription emits one
start event, a second subscription and a read emit none, and the last
unsubscribe emits exactly one stop event. -/
theorem start_stop_lifecycle_witness :
    ((subscribeStore userEnv 2 0 (.ext 1) .undefA (initEng [(0, initStore (.num 0))] [])).1.startLog
      = [(true, 7)]) ∧
    ((subscribeStore userEnv 2 0 (.ext 2) .undefA c4W).1.startLog = [(true, 7)]) ∧
    ((storeGet userEnv 1 0 c4W).1.startLog = [(true, 7)]) ∧
    ((runUnsub userEnv 2 0 c4W).1.startLog = [(true, 7), (false, 7)]) := by
  refine ⟨?_, ?_, ?_, ?_⟩
  · exact (start_stop_lifecycle.2.2.2 userEnv 0 0 1 .undefA
      (initEng [(0, initStore (.num 0))] []) 7 (by rfl) (by rfl)).1
  · exact start_stop_lifecycle.1 userEnv 0 0 2 .undefA c4W (by decide)
  · exact congrArg (fun r => r.1.startLog)
      (start_stop_lifecycle.2.1 userEnv 0 0 c4W (by decide) (by rfl))
  · exact (start_stop_lifecycle.2.2.1 userEnv 0 0 c4W 0 (.ext 1) (0, none) 7
      (by rfl) (by rfl) (by rfl)).2.1

/-- C9: a computed whose compute function returns a Promise raises a
synchronous error: for every engine state and epoch, the run reports the
promise error to its caller (here, propagated through subscribe()), the
output store is never written (stores, queue, subscriber log and run log
are all unchanged), and the prior context is restored; only the
computed`s retained prior value becomes the Promise.  The second
conjunct shows the error propagating to the subscription that triggered
the run. -/
theorem promise_compute_raises (env : Env) (c e p : Nat) (S : Eng) (fuel : Nat)
    (hfn : env.compFn c = .lit (.promiseV p))
    (hu : (getComp S c).unsubscribes = []) :
    ((runSync env (fuel+3) c e S).2 = .err .promiseErr ∧
     (runSync env (fuel+3) c e S).1.stores = S.stores ∧
     (runSync env (fuel+3) c e S).1.queue = S.queue ∧
     (runSync env (fuel+3) c e S).1.log = S.log ∧
     (runSync env (fuel+3) c e S).1.runLog = S.runLog ∧
     (runSync env (fuel+3) c e S).1.context = S.context ∧
     (getComp (runSync env (fuel+3) c e S).1 c).value = .promiseV p) ∧
    (subscribeStore c9Env 8 1 (.ext 5) .undefA c9Eng).2 = .err .promiseErr ∧
    (subscribeStore c9Env 8 1 (.ext 5) .undefA c9Eng).1.log = [] := by
  have hu2 : ((lookupA c S.comps).getD dfltComp).unsubscribes = [] := hu
  refine ⟨?_, by decide, by decide⟩
  simp [runSync, evalCExp, hfn, runFinally, runUnsubs, updComp, getComp,
    lookupA_setA_self, setA_setA, hu2]

/-- Witness for C9 at the concrete promise-returning computed. -/
theorem promise_compute_raises_witness :
    ((runSync c9Env 3 0 0 c9Eng).2 = .err .promiseErr ∧
     (runSync c9Env 3 0 0 c9Eng).1.stores = c9Eng.stores ∧
     (runSync c9Env 3 0 0 c9Eng).1.queue = c9Eng.queue ∧
     (runSync c9Env 3 0 0 c9Eng).1.log = c9Eng.log ∧
     (runSync c9Env 3 0 0 c9Eng).1.runLog = c9Eng.runLog ∧
     (runSync c9Env 3 0 0 c9Eng).1.context = c9Eng.context ∧
     (getComp (runSync c9Env 3 0 0 c9Eng).1 0).value = .promiseV 0) ∧
    (subscribeStore c9Env 8 1 (.ext 5) .undefA c9Eng).2 = .err .promiseErr ∧
    (subscribeStore c9Env 8 1 (.ext 5) .undefA c9Eng).1.log = [] :=
  promise_compute_raises c9Env 0 0 0 c9Eng 0 (by rfl) (by rfl)


theorem lookupA_setA_ne {κ α : Type} [DecidableEq κ] {k k2 : κ} (v : α) (l : List (κ × α))
    (h : k ≠ k2) : lookupA k (setA k2 v l) = lookupA k l := by
  induction l with
  | nil => simp [setA, lookupA, Ne.symm h]
  | cons p rest ih =>
    obtain ⟨k3, b⟩ := p
    by_cases h3 : k3 = k2
    · subst h3
      simp [setA, lookupA, Ne.symm h]
    · simp [setA, lookupA, h3]
      by_cases h4 : k3 = k
      · simp [h4]
      · simp [h4, ih]

theorem lookupA_eraseA_ne {κ α : Type} [DecidableEq κ] {k k2 : κ} (l : List (κ × α))
    (h : k ≠ k2) : lookupA k (eraseA k2 l) = lookupA k l := by
  induction l with
  | nil => simp [eraseA]
  | cons p rest ih =>
    obtain ⟨k3, b⟩ := p
    by_cases h3 : k3 = k2
    · subst h3
      simp [eraseA, lookupA, Ne.symm h]
    · simp [eraseA, lookupA, h3]
      by_cases h4 : k3 = k
      · simp [h4]
      · simp [h4, ih]

theorem getStore_updStore_ne (sid sid2 : StoreId) (f : StoreSt → StoreSt) (S : Eng)
    (h : sid ≠ sid2) : getStore (updStore sid2 f S) sid = getStore S sid := by
  simp [getStore, updStore, lookupA_setA_ne _ _ h]

theorem getComp_updComp (c : CompId) (f : CompSt → CompSt) (S : Eng) :
    getComp (updComp c f S) c = f (getComp S c) := by
  simp [getComp, updComp, lookupA_setA_self]

theorem addIfAbsent_of_mem {α : Type} [DecidableEq α] {a : α} {l : List α} (h : a ∈ l) :
    addIfAbsent a l = l := by
  simp [addIfAbsent, h]

theorem addIfAbsent_of_not_mem {α : Type} [DecidableEq α] {a : α} {l : List α} (h : a ∉ l) :
    addIfAbsent a l = l ++ [a] := by
  simp [addIfAbsent, h]

theorem mem_addIfAbsent {α : Type} [DecidableEq α] {a b : α} {l : List α} :
    b ∈ addIfAbsent a l ↔ b ∈ l ∨ b = a := by
  by_cases h : a ∈ l
  · simp [addIfAbsent, h]
    intro hb
    subst hb
    exact h
  · simp [addIfAbsent, h, or_comm]

theorem self_mem_addIfAbsent {α : Type} [DecidableEq α] (a : α) (l : List α) :
    a ∈ addIfAbsent a l := by
  by_cases h : a ∈ l
  · simp [addIfAbsent, h]
  · simp [addIfAbsent, h]

theorem mem_of_mem_addIfAbsent_base {α : Type} [DecidableEq α] {a b : α} {l : List α}
    (h : b ∈ l) : b ∈ addIfAbsent a l := by
  by_cases ha : a ∈ l <;> simp [addIfAbsent, ha, h]

theorem eraseA_sublist {κ α : Type} [DecidableEq κ] (k : κ) (l : List (κ × α)) :
    List.Sublist (eraseA k l) l := by
  induction l with
  | nil => exact List.Sublist.refl []
  | cons p rest ih =>
    obtain ⟨k2, b⟩ := p
    by_cases h : k2 = k
    · simp only [eraseA, h, if_true, ite_true]
      exact List.Sublist.cons _ (List.Sublist.refl rest)
    · simp only [eraseA, h, if_false, ite_false]
      exact List.Sublist.cons₂ _ ih

theorem nodup_keys_eraseA {κ α : Type} [DecidableEq κ] {k : κ} {l : List (κ × α)}
    (h : (l.map Prod.fst).Nodup) : ((eraseA k l).map Prod.fst).Nodup :=
  List.Nodup.sublist (List.Sublist.map Prod.fst (eraseA_sublist k l)) h

theorem not_mem_keys_of_lookupA_none {κ α : Type} [DecidableEq κ] {k : κ}
    {l : List (κ × α)} (h : lookupA k l = none) : ¬ k ∈ l.map Prod.fst := by
  induction l with
  | nil => simp
  | cons p rest ih =>
    obtain ⟨k2, b⟩ := p
    simp only [lookupA] at h
    by_cases h2 : k2 = k
    · rw [if_pos h2] at h
      cases h
    · rw [if_neg h2] at h
      simp only [List.map_cons, List.mem_cons]
      push_neg
      exact ⟨fun he => h2 he.symm, ih h⟩

theorem nodup_keys_setA {κ α : Type} [DecidableEq κ] {k : κ} {v : α} {l : List (κ × α)}
    (hk : lookupA k l = none) (h : (l.map Prod.fst).Nodup) :
    ((setA k v l).map Prod.fst).Nodup := by
  rw [setA_of_lookupA_none hk, List.map_append]
  simp [List.nodup_append, h]
  intro x hx
  exact not_mem_keys_of_lookupA_none hk (List.mem_map_of_mem Prod.fst hx)

theorem subscribeStore_reuse (env : Env) (fuel : Nat) (sid : StoreId) (sub : SubId)
    (invArg : InvArg) (S : Eng) (u : USub) (p : Option (CompId × Nat))
    (h : lookupA sub (getStore S sid).subs = some (u, p)) :
    subscribeStore env (fuel+1) sid sub invArg S = (S, .ok u) := by
  simp [subscribeStore, h]

/-- Characterization of subscribe() registering a new subscriber with
an invalidator under a plain start function. -/
theorem subscribeStore_fresh (env : Env) (fuel : Nat) (sid : StoreId) (sub : SubId)
    (cc : CompId) (ee : Nat) (S S' : Eng) (u : USub)
    (hnone : lookupA sub (getStore S sid).subs = none)
    (hps : plainStart (env.startOf sid) = true)
    (hsp : plainStop (getStore S sid).stop = true)
    (hrun : subscribeStore env fuel sid sub (.inval cc ee) S = (S', .ok u)) :
    u = S.nextUsub ∧
    S'.comps = S.comps ∧ S'.queue = S.queue ∧ S'.context = S.context ∧
    S'.syncLog = S.syncLog ∧
    S'.usubTable = setA S.nextUsub (sid, sub) S.usubTable ∧
    S'.nextUsub = S.nextUsub + 1 ∧
    (getStore S' sid).subs = setA sub (S.nextUsub, some (cc, ee)) (getStore S sid).subs ∧
    (∀ sid2, sid2 ≠ sid → getStore S' sid2 = getStore S sid2) ∧
    plainStop (getStore S' sid).stop = true := by
  cases fuel with
  | zero => simp [subscribeStore] at hrun
  | succ f =>
    have hnone2 : lookupA sub ((lookupA sid S.stores).getD dfltStore).subs = none := hnone
    have hsp2 : plainStop (((lookupA sid S.stores).getD dfltStore)).stop = true := hsp
    by_cases hemp : ((lookupA sid S.stores).getD dfltStore).subs = []
    · -- first subscriber: the start function runs
      cases hs : env.startOf sid with
      | compStart c2 => rw [hs] at hps; simp [plainStart] at hps
      | noop =>
        cases f with
        | zero =>
          simp only [subscribeStore, getStore, hnone2, hemp, lookupA, setA, hs] at hrun
          simp [runStart, updStore, getStore, lookupA, setA, lookupA_setA_self, setA_setA,
            hemp] at hrun
        | succ f2 =>
          simp only [subscribeStore, getStore, hnone2, hemp, lookupA, setA, hs] at hrun
          simp [runStart, updStore, getStore, lookupA, setA, lookupA_setA_self,
            setA_setA, hemp] at hrun
          obtain ⟨h1, h2⟩ := hrun
          subst h2
          subst h1
          refine ⟨rfl, rfl, rfl, rfl, rfl, rfl, rfl, ?_, ?_, ?_⟩
          · simp [getStore, updStore, lookupA_setA_self, hemp, setA]
          · intro sid2 hne
            simp [getStore, updStore, lookupA_setA_ne _ _ hne]
          · simp [getStore, updStore, lookupA_setA_self, plainStop]
      | user k =>
        cases f with
        | zero =>
          simp only [subscribeStore, getStore, hnone2, hemp, lookupA, setA, hs] at hrun
          simp [runStart, updStore, getStore, lookupA, setA, lookupA_setA_self, setA_setA,
            hemp] at hrun
        | succ f2 =>
          simp only [subscribeStore, getStore, hnone2, hemp, lookupA, setA, hs] at hrun
          simp [runStart, updStore, getStore, lookupA, setA, lookupA_setA_self,
            setA_setA, hemp] at hrun
          obtain ⟨h1, h2⟩ := hrun
          subst h2
          subst h1
          refine ⟨rfl, rfl, rfl, rfl, rfl, rfl, rfl, ?_, ?_, ?_⟩
          · simp [getStore, updStore, lookupA_setA_self, hemp, setA]
          · intro sid2 hne
            simp [getStore, updStore, lookupA_setA_ne _ _ hne]
          · simp [getStore, updStore, lookupA_setA_self, plainStop]
    · -- the store already had subscribers: no start
      have hpos : ¬ ((lookupA sid S.stores).getD dfltStore).subs.length = 0 := by
        intro h0
        exact hemp (List.length_eq_zero.mp h0)
      have hlen : (setA sub ((S.nextUsub, some (cc, ee)) : USub × Option (CompId × Nat))
          ((lookupA sid S.stores).getD dfltStore).subs).length =
          ((lookupA sid S.stores).getD dfltStore).subs.length + 1 :=
        length_setA_of_lookupA_none hnone2
      simp only [subscribeStore, getStore, hnone2] at hrun
      simp [updStore, getStore, lookupA_setA_self, hlen, hpos] at hrun
      obtain ⟨h1, h2⟩ := hrun
      subst h2
      subst h1
      refine ⟨rfl, rfl, rfl, rfl, rfl, rfl, rfl, ?_, ?_, ?_⟩
      · simp [getStore, updStore, lookupA_setA_self]
      · intro sid2 hne
        simp [getStore, updStore, lookupA_setA_ne _ _ hne]
      · simpa [getStore, updStore, lookupA_setA_self] using hsp2

theorem ctxAccum_eq (u : USub) (sid : StoreId) (S : Eng) (ctx : Ctx)
    (h : S.context = some ctx) :
    ctxAccum u sid S = { S with context := some { ctx with
      unsubscribes := addIfAbsent u ctx.unsubscribes,
      reads := addIfAbsent sid ctx.reads } } := by
  simp [ctxAccum, h]

theorem stores_ctxAccum (u : USub) (sid : StoreId) (S : Eng) :
    (ctxAccum u sid S).stores = S.stores := by
  unfold ctxAccum
  cases S.context <;> simp

theorem comps_ctxAccum (u : USub) (sid : StoreId) (S : Eng) :
    (ctxAccum u sid S).comps = S.comps := by
  unfold ctxAccum
  cases S.context <;> simp

theorem queue_ctxAccum (u : USub) (sid : StoreId) (S : Eng) :
    (ctxAccum u sid S).queue = S.queue := by
  unfold ctxAccum
  cases S.context <;> simp

theorem syncLog_ctxAccum (u : USub) (sid : StoreId) (S : Eng) :
    (ctxAccum u sid S).syncLog = S.syncLog := by
  unfold ctxAccum
  cases S.context <;> simp

theorem usubTable_ctxAccum (u : USub) (sid : StoreId) (S : Eng) :
    (ctxAccum u sid S).usubTable = S.usubTable := by
  unfold ctxAccum
  cases S.context <;> simp

theorem nextUsub_ctxAccum (u : USub) (sid : StoreId) (S : Eng) :
    (ctxAccum u sid S).nextUsub = S.nextUsub := by
  unfold ctxAccum
  cases S.context <;> simp

theorem getStore_ctxAccum (u : USub) (sid sid2 : StoreId) (S : Eng) :
    getStore (ctxAccum u sid S) sid2 = getStore S sid2 := by
  simp [getStore, stores_ctxAccum]

theorem regAt_ctxAccum (c : CompId) (e : Nat) (u : USub) (sid sid2 : StoreId) (S : Eng) :
    regAt c e (ctxAccum u sid S) sid2 = regAt c e S sid2 := by
  simp [regAt, getStore_ctxAccum]

theorem context_ctxAccum (u : USub) (sid : StoreId) (S : Eng) (ctx : Ctx)
    (h : S.context = some ctx) :
    (ctxAccum u sid S).context = some { ctx with
      unsubscribes := addIfAbsent u ctx.unsubscribes,
      reads := addIfAbsent sid ctx.reads } := by
  rw [ctxAccum_eq u sid S ctx h]

/-- get() under an active tracking context preserves the tracked-run
invariant, adding the read store to the frame's read set and its
unsubscribe closure to the frame's unsubscribe set. -/
theorem storeGet_track (env : Env) (c : CompId) (e : Nat) (S0 : Eng)
    (hW2a : ∀ sid u p, regAt c e S0 sid = some (u, p) →
      lookupA u S0.usubTable = some (sid, SubId.comp c e))
    (hW5 : ∀ sid, plainStart (env.startOf sid) = true)
    (fuel : Nat) (sid : StoreId) (S S' : Eng) (v : JSVal)
    (us : List USub) (rs : List StoreId)
    (hinv : TrackInv c e S0 S us rs)
    (hrun : storeGet env fuel sid S = (S', .ok v)) :
    ∃ us', TrackInv c e S0 S' us' (addIfAbsent sid rs) ∧ ∀ u ∈ us, u ∈ us' := by
  cases fuel with
  | zero => simp [storeGet] at hrun
  | succ f =>
    have hctx := hinv.ctx_eq
    simp only [storeGet, hctx] at hrun
    cases f with
    | zero => simp [subscribeStore] at hrun
    | succ f2 =>
      cases hreg : lookupA (SubId.comp c e) (getStore S sid).subs with
      | some pr =>
        obtain ⟨u0, p0⟩ := pr
        rw [subscribeStore_reuse env f2 sid _ _ S u0 p0 hreg] at hrun
        have hne : (getStore (ctxAccum u0 sid S) sid).subs.isEmpty = false := by
          rw [getStore_ctxAccum]
          cases hq : (getStore S sid).subs with
          | nil => rw [hq] at hreg; simp [lookupA] at hreg
          | cons a b => rfl
        simp only [hne, Bool.false_and, Bool.false_eq_true, if_false, ite_false] at hrun
        rw [Prod.mk.injEq] at hrun
        obtain ⟨h1, h2⟩ := hrun
        subst h1
        refine ⟨addIfAbsent u0 us, ?_, fun u2 hu2 => mem_of_mem_addIfAbsent_base hu2⟩
        refine ⟨context_ctxAccum u0 sid S _ hctx,
          by rw [comps_ctxAccum]; exact hinv.comps_eq,
          by rw [queue_ctxAccum]; exact hinv.queue_eq,
          by rw [syncLog_ctxAccum]; exact hinv.syncLog_eq,
          by rw [nextUsub_ctxAccum]; exact hinv.next_ge,
          ?_, ?_, ?_, ?_, ?_, ?_, ?_, ?_⟩
        · intro u2 hge
          rw [nextUsub_ctxAccum] at hge
          rw [usubTable_ctxAccum]
          exact hinv.fresh u2 hge
        · intro u2 hsome
          rw [usubTable_ctxAccum]
          exact hinv.table_mono u2 hsome
        · intro sid2 hnm
          rw [mem_addIfAbsent] at hnm
          push_neg at hnm
          rw [getStore_ctxAccum]
          exact hinv.unread sid2 hnm.1
        · intro sid2 hm u1 p1 hr0
          rw [regAt_ctxAccum]
          rw [mem_addIfAbsent] at hm
          rcases hm with hm | hm
          · obtain ⟨ha, hb⟩ := hinv.read_old sid2 hm u1 p1 hr0
            exact ⟨ha, mem_of_mem_addIfAbsent_base hb⟩
          · rw [hm] at hr0 ⊢
            by_cases hin : sid ∈ rs
            · obtain ⟨ha, hb⟩ := hinv.read_old sid hin u1 p1 hr0
              exact ⟨ha, mem_of_mem_addIfAbsent_base hb⟩
            · have hu : regAt c e S sid = regAt c e S0 sid := by
                unfold regAt
                rw [hinv.unread sid hin]
              have hx : regAt c e S sid = some (u1, p1) := by rw [hu, hr0]
              have hup : u1 = u0 := by
                rw [regAt] at hx
                rw [hx] at hreg
                exact congrArg Prod.fst (Option.some.inj hreg)
              refine ⟨hx, ?_⟩
              rw [hup]
              exact self_mem_addIfAbsent u0 us
        · intro sid2 hm hr0
          rw [regAt_ctxAccum]
          rw [mem_addIfAbsent] at hm
          rcases hm with hm | hm
          · obtain ⟨u1, ha, hb, hc⟩ := hinv.read_new sid2 hm hr0
            exact ⟨u1, ha, mem_of_mem_addIfAbsent_base hb,
              by rw [usubTable_ctxAccum]; exact hc⟩
          · rw [hm] at hr0 ⊢
            by_cases hin : sid ∈ rs
            · obtain ⟨u1, ha, hb, hc⟩ := hinv.read_new sid hin hr0
              exact ⟨u1, ha, mem_of_mem_addIfAbsent_base hb,
                by rw [usubTable_ctxAccum]; exact hc⟩
            · have hu : regAt c e S sid = regAt c e S0 sid := by
                unfold regAt
                rw [hinv.unread sid hin]
              rw [regAt] at hu
              rw [hu, hr0] at hreg
              cases hreg
        · intro u2 hu2
          rw [mem_addIfAbsent] at hu2
          rcases hu2 with hu2 | hu2
          · obtain ⟨sid2, ha, hb, hc⟩ := hinv.us_dom u2 hu2
            exact ⟨sid2, mem_of_mem_addIfAbsent_base ha,
              by rw [usubTable_ctxAccum]; exact hb,
              by rw [regAt_ctxAccum]; exact hc⟩
          · rw [hu2]
            refine ⟨sid, self_mem_addIfAbsent sid rs, ?_,
              p0, by rw [regAt_ctxAccum, regAt]; exact hreg⟩
            rw [usubTable_ctxAccum]
            by_cases hin : sid ∈ rs
            · cases hr0 : regAt c e S0 sid with
              | some pr1 =>
                obtain ⟨u1, p1⟩ := pr1
                obtain ⟨ha, hb⟩ := hinv.read_old sid hin u1 p1 hr0
                have hx : u1 = u0 := by
                  rw [regAt] at ha
                  rw [ha] at hreg
                  exact congrArg Prod.fst (Option.some.inj hreg)
                subst hx
                rw [hinv.table_mono u1 (by rw [hW2a sid u1 p1 hr0]; rfl)]
                exact hW2a sid u1 p1 hr0
              | none =>
                obtain ⟨u1, ha, hb, hc⟩ := hinv.read_new sid hin hr0
                have hx : u1 = u0 := by
                  rw [regAt] at ha
                  rw [ha] at hreg
                  exact congrArg Prod.fst (Option.some.inj hreg)
                subst hx
                exact hc
            · have hu : regAt c e S sid = regAt c e S0 sid := by
                unfold regAt
                rw [hinv.unread sid hin]
              have hr0 : regAt c e S0 sid = some (u0, p0) := by
                rw [← hu, regAt]
                exact hreg
              rw [hinv.table_mono u0 (by rw [hW2a sid u0 p0 hr0]; rfl)]
              exact hW2a sid u0 p0 hr0
        · intro sid2
          rw [getStore_ctxAccum]
          exact hinv.stops_plain sid2
        · intro sid2
          rw [getStore_ctxAccum]
          exact hinv.subs_nodup sid2
      | none =>
        rcases hsub : subscribeStore env (f2+1) sid (SubId.comp c e) (InvArg.inval c e) S
          with ⟨S1, out1⟩
        rw [hsub] at hrun
        cases out1 with
        | err e1 => simp at hrun
        | ok u0 =>
          obtain ⟨hu0, hcomps, hqueue, hcx, hslog, htab, hnext, hsubs, hother, hstop⟩ :=
            subscribeStore_fresh env (f2+1) sid (SubId.comp c e) c e S S1 u0 hreg
              (hW5 sid) (hinv.stops_plain sid) hsub
          subst hu0
          have hctx1 : S1.context = some ⟨c, e, us, rs⟩ := by
            rw [hcx]
            exact hctx
          have hne : (getStore (ctxAccum S.nextUsub sid S1) sid).subs.isEmpty = false := by
            rw [getStore_ctxAccum, hsubs]
            cases hq : (getStore S sid).subs with
            | nil => rfl
            | cons a b =>
              obtain ⟨k1, v1⟩ := a
              by_cases hk : k1 = SubId.comp c e
              · simp [setA, hk]
              · simp [setA, hk]
          simp only [hne, Bool.false_and, Bool.false_eq_true, if_false, ite_false] at hrun
          rw [Prod.mk.injEq] at hrun
          obtain ⟨h1, h2⟩ := hrun
          subst h1
          have hsid_notin : sid ∉ rs := by
            intro hin
            cases hr0 : regAt c e S0 sid with
            | some pr1 =>
              obtain ⟨u1, p1⟩ := pr1
              obtain ⟨ha, hb⟩ := hinv.read_old sid hin u1 p1 hr0
              rw [regAt] at ha
              rw [ha] at hreg
              cases hreg
            | none =>
              obtain ⟨u1, ha, hb, hc⟩ := hinv.read_new sid hin hr0
              rw [regAt] at ha
              rw [ha] at hreg
              cases hreg
          have hfresh_u : S.nextUsub ∉ us := by
            intro hin
            obtain ⟨sid2, ha, hb, hc⟩ := hinv.us_dom S.nextUsub hin
            rw [hinv.fresh S.nextUsub (le_refl _)] at hb
            cases hb
          have htab2 : ∀ u2, u2 ≠ S.nextUsub →
              lookupA u2 S1.usubTable = lookupA u2 S.usubTable := by
            intro u2 hne2
            rw [htab]
            exact lookupA_setA_ne _ _ hne2
          have htabself : lookupA S.nextUsub S1.usubTable =
              some (sid, SubId.comp c e) := by
            rw [htab]
            exact lookupA_setA_self
          have hmemtab : ∀ u2 ∈ us, u2 ≠ S.nextUsub := by
            intro u2 hu2 heq
            exact hfresh_u (heq ▸ hu2)
          refine ⟨addIfAbsent S.nextUsub us, ?_,
            fun u2 hu2 => mem_of_mem_addIfAbsent_base hu2⟩
          refine ⟨context_ctxAccum S.nextUsub sid S1 _ hctx1,
            by rw [comps_ctxAccum, hcomps]; exact hinv.comps_eq,
            by rw [queue_ctxAccum, hqueue]; exact hinv.queue_eq,
            by rw [syncLog_ctxAccum, hslog]; exact hinv.syncLog_eq,
            by rw [nextUsub_ctxAccum, hnext]; exact Nat.le_succ_of_le hinv.next_ge,
            ?_, ?_, ?_, ?_, ?_, ?_, ?_, ?_⟩
          · intro u2 hge
            rw [nextUsub_ctxAccum, hnext] at hge
            rw [usubTable_ctxAccum]
            have hne2 : u2 ≠ S.nextUsub := by
              intro heq
              rw [heq] at hge
              exact Nat.not_succ_le_self _ hge
            rw [htab2 u2 hne2]
            exact hinv.fresh u2 (Nat.le_of_succ_le hge)
          · intro u2 hsome
            rw [usubTable_ctxAccum]
            have hmono := hinv.table_mono u2 hsome
            have hne2 : u2 ≠ S.nextUsub := by
              intro heq
              rw [heq] at hmono hsome
              rw [hinv.fresh S.nextUsub (le_refl _)] at hmono
              rw [← hmono] at hsome
              simp at hsome
            rw [htab2 u2 hne2]
            exact hmono
          · intro sid2 hnm
            rw [mem_addIfAbsent] at hnm
            push_neg at hnm
            rw [getStore_ctxAccum, hother sid2 hnm.2]
            exact hinv.unread sid2 hnm.1
          · intro sid2 hm u1 p1 hr0
            rw [regAt_ctxAccum]
            rw [mem_addIfAbsent] at hm
            rcases hm with hm | hm
            · have hne2 : sid2 ≠ sid := fun heq => hsid_notin (heq ▸ hm)
              obtain ⟨ha, hb⟩ := hinv.read_old sid2 hm u1 p1 hr0
              refine ⟨?_, mem_of_mem_addIfAbsent_base hb⟩
              rw [regAt] at ha ⊢
              rw [hother sid2 hne2]
              exact ha
            · rw [hm] at hr0
              have hu : regAt c e S sid = regAt c e S0 sid := by
                unfold regAt
                rw [hinv.unread sid hsid_notin]
              rw [regAt] at hu
              rw [hu, hr0] at hreg
              cases hreg
          · intro sid2 hm hr0
            rw [regAt_ctxAccum]
            rw [mem_addIfAbsent] at hm
            rcases hm with hm | hm
            · have hne2 : sid2 ≠ sid := fun heq => hsid_notin (heq ▸ hm)
              obtain ⟨u1, ha, hb, hc⟩ := hinv.read_new sid2 hm hr0
              refine ⟨u1, ?_, mem_of_mem_addIfAbsent_base hb, ?_⟩
              · rw [regAt] at ha ⊢
                rw [hother sid2 hne2]
                exact ha
              · have hne3 : u1 ≠ S.nextUsub := by
                  intro heq
                  rw [heq, hinv.fresh S.nextUsub (le_refl _)] at hc
                  cases hc
                rw [usubTable_ctxAccum, htab2 u1 hne3]
                exact hc
            · rw [hm]
              refine ⟨S.nextUsub, ?_, self_mem_addIfAbsent _ _,
                by rw [usubTable_ctxAccum, htabself]⟩
              rw [regAt, hsubs]
              exact lookupA_setA_self
          · intro u2 hu2
            rw [mem_addIfAbsent] at hu2
            rcases hu2 with hu2 | hu2
            · obtain ⟨sid2, ha, hb, p1, hc⟩ := hinv.us_dom u2 hu2
              have hne2 : sid2 ≠ sid := fun heq => hsid_notin (heq ▸ ha)
              refine ⟨sid2, mem_of_mem_addIfAbsent_base ha, ?_, p1, ?_⟩
              · rw [usubTable_ctxAccum, htab2 u2 (hmemtab u2 hu2)]
                exact hb
              · rw [regAt_ctxAccum, regAt]
                rw [regAt] at hc
                rw [hother sid2 hne2]
                exact hc
            · rw [hu2]
              refine ⟨sid, self_mem_addIfAbsent _ _,
                by rw [usubTable_ctxAccum, htabself], some (c, e), ?_⟩
              rw [regAt_ctxAccum, regAt, hsubs]
              exact lookupA_setA_self
          · intro sid2
            rw [getStore_ctxAccum]
            by_cases hne2 : sid2 = sid
            · rw [hne2]
              exact hstop
            · rw [hother sid2 hne2]
              exact hinv.stops_plain sid2
          · intro sid2
            rw [getStore_ctxAccum]
            by_cases hne2 : sid2 = sid
            · rw [hne2, hsubs]
              exact nodup_keys_setA hreg (hinv.subs_nodup sid)
            · rw [hother sid2 hne2]
              exact hinv.subs_nodup sid2

/-- Evaluating a compute expression under the tracking context
preserves the tracked-run invariant; the read set only grows, and only
by stores the expression mentions. -/
theorem evalCExp_track (env : Env) (c : CompId) (e : Nat) (S0 : Eng)
    (hW2a : ∀ sid u p, regAt c e S0 sid = some (u, p) →
      lookupA u S0.usubTable = some (sid, SubId.comp c e))
    (hW5 : ∀ sid, plainStart (env.startOf sid) = true) :
    ∀ fuel exp S S' v us rs,
    TrackInv c e S0 S us rs →
    evalCExp env fuel c exp S = (S', .ok v) →
    ∃ us' rs', TrackInv c e S0 S' us' rs' ∧
      (∀ u ∈ us, u ∈ us') ∧ (∀ x ∈ rs, x ∈ rs') ∧
      (∀ x ∈ rs', x ∈ rs ∨ x ∈ CExp.readsIn exp) := by
  intro fuel
  induction fuel with
  | zero =>
    intro exp S S' v us rs hinv hrun
    simp [evalCExp] at hrun
  | succ f ih =>
    intro exp S S' v us rs hinv hrun
    cases exp with
    | lit w =>
      simp only [evalCExp] at hrun
      rw [Prod.mk.injEq] at hrun
      obtain ⟨h1, h2⟩ := hrun
      subst h1
      exact ⟨us, rs, hinv, fun u hu => hu, fun x hx => hx, fun x hx => Or.inl hx⟩
    | priorV =>
      simp only [evalCExp] at hrun
      rw [Prod.mk.injEq] at hrun
      obtain ⟨h1, h2⟩ := hrun
      subst h1
      exact ⟨us, rs, hinv, fun u hu => hu, fun x hx => hx, fun x hx => Or.inl hx⟩
    | readS sid =>
      simp only [evalCExp] at hrun
      obtain ⟨us', hinv', hmono⟩ :=
        storeGet_track env c e S0 hW2a hW5 f sid S S' v us rs hinv hrun
      refine ⟨us', addIfAbsent sid rs, hinv', hmono,
        fun x hx => mem_of_mem_addIfAbsent_base hx, ?_⟩
      intro x hx
      rw [mem_addIfAbsent] at hx
      rcases hx with hx | hx
      · exact Or.inl hx
      · right
        simp [CExp.readsIn, hx]
    | add a b =>
      simp only [evalCExp] at hrun
      split at hrun
      next SA va hA =>
        split at hrun
        next SB vb hB =>
          rw [Prod.mk.injEq] at hrun
          obtain ⟨h1, h2⟩ := hrun
          subst h1
          obtain ⟨us1, rs1, hinv1, hm1, hr1, hs1⟩ := ih a S SA va us rs hinv hA
          obtain ⟨us2, rs2, hinv2, hm2, hr2, hs2⟩ := ih b SA SB vb us1 rs1 hinv1 hB
          refine ⟨us2, rs2, hinv2, fun u hu => hm2 u (hm1 u hu),
            fun x hx => hr2 x (hr1 x hx), ?_⟩
          intro x hx
          rcases hs2 x hx with hx2 | hx2
          · rcases hs1 x hx2 with hx3 | hx3
            · exact Or.inl hx3
            · right
              simp [CExp.readsIn]
              exact Or.inl hx3
          · right
            simp [CExp.readsIn]
            exact Or.inr hx2
        next SB e1 hB => simp at hrun
      next SB e1 hB => simp at hrun
    | condE cnd thn els =>
      simp only [evalCExp] at hrun
      split at hrun
      next SA vc hA =>
        obtain ⟨us1, rs1, hinv1, hm1, hr1, hs1⟩ := ih cnd S SA vc us rs hinv hA
        have hfin : ∃ brexp, (brexp = thn ∨ brexp = els) ∧
            evalCExp env f c brexp SA = (S', Outcome.ok v) := by
          split at hrun
          · exact ⟨thn, Or.inl rfl, hrun⟩
          · exact ⟨els, Or.inr rfl, hrun⟩
        obtain ⟨brexp, hbr, hrun2⟩ := hfin
        obtain ⟨us2, rs2, hinv2, hm2, hr2, hs2⟩ :=
          ih brexp SA S' v us1 rs1 hinv1 hrun2
        refine ⟨us2, rs2, hinv2, fun u hu => hm2 u (hm1 u hu),
          fun x hx => hr2 x (hr1 x hx), ?_⟩
        intro x hx
        rcases hs2 x hx with hx2 | hx2
        · rcases hs1 x hx2 with hx3 | hx3
          · exact Or.inl hx3
          · right
            simp [CExp.readsIn]
            exact Or.inl hx3
        · right
          simp [CExp.readsIn]
          rcases hbr with hb | hb <;> rw [hb] at hx2
          · exact Or.inr (Or.inl hx2)
          · exact Or.inr (Or.inr hx2)
      next SA e1 hA => simp at hrun
    | throwE =>
      simp [evalCExp] at hrun

/-- A completed unsubscribe closure erases exactly its own
registration; under plain stop handles it changes no other store, the
closure table, the computeds, the queue or the context. -/
theorem runUnsub_effect (env : Env) (fuel : Nat) (u : USub) (S S' : Eng)
    (sid : StoreId) (key : SubId)
    (ht : lookupA u S.usubTable = some (sid, key))
    (hsp : ∀ sid2, plainStop (getStore S sid2).stop = true)
    (hnd : ∀ sid2, ((getStore S sid2).subs.map Prod.fst).Nodup)
    (hrun : runUnsub env fuel u S = (S', .ok ())) :
    S'.usubTable = S.usubTable ∧ S'.comps = S.comps ∧ S'.queue = S.queue ∧
    S'.context = S.context ∧ S'.syncLog = S.syncLog ∧ S'.nextUsub = S.nextUsub ∧
    (getStore S' sid).subs = eraseA key (getStore S sid).subs ∧
    (∀ sid2, sid2 ≠ sid → getStore S' sid2 = getStore S sid2) ∧
    (∀ sid2, plainStop (getStore S' sid2).stop = true) ∧
    (∀ sid2, ((getStore S' sid2).subs.map Prod.fst).Nodup) := by
  cases fuel with
  | zero => simp [runUnsub] at hrun
  | succ f =>
    simp only [runUnsub, ht] at hrun
    split at hrun
    · -- the subscriber map became empty: the stop handle runs
      split at hrun
      next hstop => simp at hrun
      next stopId hstop =>
        have hstop2 : (getStore S sid).stop = some stopId := by
          rw [getStore_updStore] at hstop
          exact hstop
        have hplain := hsp sid
        rw [hstop2] at hplain
        cases stopId with
        | compStop c2 => simp [plainStop] at hplain
        | noop =>
          cases f with
          | zero => simp [runStop] at hrun
          | succ f2 =>
            simp only [runStop] at hrun
            rw [Prod.mk.injEq] at hrun
            obtain ⟨h1, h2⟩ := hrun
            subst h1
            refine ⟨rfl, rfl, rfl, rfl, rfl, rfl, ?_, ?_, ?_, ?_⟩
            · simp [getStore_updStore]
            · intro sid2 hne
              rw [getStore_updStore_ne _ _ _ _ hne, getStore_updStore_ne _ _ _ _ hne]
            · intro sid2
              by_cases hne : sid2 = sid
              · rw [hne]
                simp [getStore_updStore, plainStop]
              · rw [getStore_updStore_ne _ _ _ _ hne, getStore_updStore_ne _ _ _ _ hne]
                exact hsp sid2
            · intro sid2
              by_cases hne : sid2 = sid
              · rw [hne]
                simp [getStore_updStore]
                exact nodup_keys_eraseA (hnd sid)
              · rw [getStore_updStore_ne _ _ _ _ hne, getStore_updStore_ne _ _ _ _ hne]
                exact hnd sid2
        | userStop k =>
          cases f with
          | zero => simp [runStop] at hrun
          | succ f2 =>
            simp only [runStop] at hrun
            rw [Prod.mk.injEq] at hrun
            obtain ⟨h1, h2⟩ := hrun
            subst h1
            refine ⟨rfl, rfl, rfl, rfl, rfl, rfl, ?_, ?_, ?_, ?_⟩
            · simp [getStore_updStore, getStore, updStore, lookupA_setA_self]
            · intro sid2 hne
              simp [getStore, updStore, lookupA_setA_ne _ _ hne]
            · intro sid2
              by_cases hne : sid2 = sid
              · rw [hne]
                simp [getStore_updStore, getStore, updStore, lookupA_setA_self, plainStop]
              · simp [getStore, updStore, lookupA_setA_ne _ _ hne]
                exact hsp sid2
            · intro sid2
              by_cases hne : sid2 = sid
              · rw [hne]
                simp [getStore_updStore, getStore, updStore, lookupA_setA_self]
                exact nodup_keys_eraseA (hnd sid)
              · simp [getStore, updStore, lookupA_setA_ne _ _ hne]
                exact hnd sid2
    · -- other subscribers remain
      rw [Prod.mk.injEq] at hrun
      obtain ⟨h1, h2⟩ := hrun
      subst h1
      refine ⟨rfl, rfl, rfl, rfl, rfl, rfl, ?_, ?_, ?_, ?_⟩
      · simp [getStore_updStore]
      · intro sid2 hne
        rw [getStore_updStore_ne _ _ _ _ hne]
      · intro sid2
        by_cases hne : sid2 = sid
        · rw [hne]
          simp [getStore_updStore]
          exact hsp sid
        · rw [getStore_updStore_ne _ _ _ _ hne]
          exact hsp sid2
      · intro sid2
        by_cases hne : sid2 = sid
        · rw [hne]
          simp [getStore_updStore]
          exact nodup_keys_eraseA (hnd sid)
        · rw [getStore_updStore_ne _ _ _ _ hne]
          exact hnd sid2

/-- Running a list of stale unsubscribe closures of one computed
activation removes exactly the registrations those closures point at
and touches nothing else. -/
theorem runUnsubs_sweep (env : Env) (c : CompId) (e : Nat) :
    ∀ (L : List USub) (fuel : Nat) (S S' : Eng),
    runUnsubs env fuel L S = (S', .ok ()) →
    (∀ u ∈ L, ∃ sid, lookupA u S.usubTable = some (sid, SubId.comp c e)) →
    (∀ sid2, plainStop (getStore S sid2).stop = true) →
    (∀ sid2, ((getStore S sid2).subs.map Prod.fst).Nodup) →
    S'.usubTable = S.usubTable ∧ S'.comps = S.comps ∧ S'.queue = S.queue ∧
    S'.context = S.context ∧ S'.syncLog = S.syncLog ∧ S'.nextUsub = S.nextUsub ∧
    (∀ sid2, plainStop (getStore S' sid2).stop = true) ∧
    (∀ sid2, ((getStore S' sid2).subs.map Prod.fst).Nodup) ∧
    (∀ sid, (∀ u ∈ L, lookupA u S.usubTable ≠ some (sid, SubId.comp c e)) →
      getStore S' sid = getStore S sid) ∧
    (∀ sid u, u ∈ L → lookupA u S.usubTable = some (sid, SubId.comp c e) →
      regAt c e S' sid = none) := by
  intro L
  induction L with
  | nil =>
    intro fuel S S' hrun hT hP hN
    cases fuel with
    | zero => simp [runUnsubs] at hrun
    | succ f =>
      simp only [runUnsubs] at hrun
      rw [Prod.mk.injEq] at hrun
      obtain ⟨h1, h2⟩ := hrun
      subst h1
      refine ⟨rfl, rfl, rfl, rfl, rfl, rfl, hP, hN, fun sid h => rfl, ?_⟩
      intro sid u hu
      simp at hu
  | cons u rest ih =>
    intro fuel S S' hrun hT hP hN
    cases fuel with
    | zero => simp [runUnsubs] at hrun
    | succ f =>
      simp only [runUnsubs] at hrun
      split at hrun
      next S1 heq =>
        obtain ⟨sid0, ht⟩ := hT u (List.mem_cons_self u rest)
        obtain ⟨e1, e2, e3, e4, e5, e6, hsubs_e, hothers, hplains, hnodups⟩ :=
          runUnsub_effect env f u S S1 sid0 (SubId.comp c e) ht hP hN heq
        have hT1 : ∀ u2 ∈ rest, ∃ sid,
            lookupA u2 S1.usubTable = some (sid, SubId.comp c e) := by
          rw [e1]
          exact fun u2 h => hT u2 (List.mem_cons_of_mem u h)
        obtain ⟨f1, f2, f3, f4, f5, f6, hplains2, hnodups2, huntouched, herased⟩ :=
          ih f S1 S' hrun hT1 hplains hnodups
        refine ⟨by rw [f1, e1], by rw [f2, e2], by rw [f3, e3], by rw [f4, e4],
          by rw [f5, e5], by rw [f6, e6], hplains2, hnodups2, ?_, ?_⟩
        · intro sid hnone
          have hne0 : sid0 ≠ sid := by
            intro heq2
            exact hnone u (List.mem_cons_self u rest) (heq2 ▸ ht)
          have hstep : getStore S' sid = getStore S1 sid := by
            apply huntouched sid
            intro u2 hu2
            rw [e1]
            exact hnone u2 (List.mem_cons_of_mem u hu2)
          rw [hstep, hothers sid (Ne.symm hne0)]
        · intro sid u2 hu2 htab
          rcases List.mem_cons.mp hu2 with hu2 | hu2
          · subst hu2
            have hsid : sid0 = sid := by
              rw [ht] at htab
              have := Option.some.inj htab
              exact congrArg Prod.fst this
            subst hsid
            by_cases htar : ∀ u3 ∈ rest, lookupA u3 S1.usubTable ≠
                some (sid0, SubId.comp c e)
            · have hstep := huntouched sid0 htar
              rw [regAt, hstep, hsubs_e]
              exact lookupA_eraseA_self (hN sid0)
            · push_neg at htar
              obtain ⟨u3, hu3, htab3⟩ := htar
              exact herased sid0 u3 hu3 htab3
          · apply herased sid u2 hu2
            rw [e1]
            exact htab
      next S1 e1 heq => simp at hrun

theorem harmless_setA (k : SubId) (v : JSVal) (q : List (SubId × JSVal))
    (hk : harmlessKey k = true) (hq : ∀ en ∈ q, harmlessKey en.1 = true) :
    ∀ en ∈ setA k v q, harmlessKey en.1 = true := by
  induction q with
  | nil =>
    intro en hen
    simp [setA] at hen
    rw [hen]
    exact hk
  | cons p rest ih =>
    obtain ⟨k2, b⟩ := p
    intro en hen
    by_cases h2 : k2 = k
    · simp only [setA, h2, if_true, ite_true] at hen
      rcases List.mem_cons.mp hen with hen | hen
      · rw [hen]
        simpa using hk
      · exact hq en (List.mem_cons_of_mem _ hen)
    · simp only [setA, h2, if_false, ite_false] at hen
      rcases List.mem_cons.mp hen with hen | hen
      · rw [hen]
        exact hq (k2, b) (List.mem_cons_self _ _)
      · exact ih (fun en2 hen2 => hq en2 (List.mem_cons_of_mem _ hen2)) en hen

theorem extEntry_shape (sub : SubId) (u : USub) (inv : Option (CompId × Nat))
    (h : extEntry (sub, u, inv) = true) : (∃ n, sub = SubId.ext n) ∧ inv = none := by
  cases sub <;> cases inv <;> simp [extEntry] at h ⊢

theorem enqueueSubs_ext (env : Env) (sid : StoreId) :
    ∀ (snapshot : List (SubId × (USub × Option (CompId × Nat)))) (S : Eng),
    (∀ en ∈ snapshot, extEntry en = true) →
    ∃ q2, enqueueSubs env sid snapshot S = { S with queue := q2 } ∧
      ((∀ en ∈ S.queue, harmlessKey en.1 = true) →
        ∀ en ∈ q2, harmlessKey en.1 = true) := by
  intro snapshot
  induction snapshot with
  | nil =>
    intro S hx
    exact ⟨S.queue, rfl, fun h => h⟩
  | cons en rest ih =>
    intro S hx
    obtain ⟨sub, u, inv⟩ := en
    have hhead : extEntry (sub, u, inv) = true := hx (sub, u, inv) (List.mem_cons_self _ _)
    have hsub : (∃ n, sub = SubId.ext n) ∧ inv = none := extEntry_shape sub u inv hhead
    obtain ⟨⟨n, hn⟩, hinv⟩ := hsub
    subst hn
    subst hinv
    have hstep : enqueueSubs env sid ((SubId.ext n, u, none) :: rest) S =
        enqueueSubs env sid rest
          (if (lookupA (SubId.ext n) S.queue).isSome then S
           else { S with queue := setA (SubId.ext n) (getStore S sid).value S.queue }) := by
      simp only [enqueueSubs, List.foldl_cons]
    rw [hstep]
    by_cases hp : (lookupA (SubId.ext n) S.queue).isSome
    · rw [if_pos hp]
      exact ih S (fun en2 hen2 => hx en2 (List.mem_cons_of_mem _ hen2))
    · rw [if_neg hp]
      obtain ⟨q2, heq, hh⟩ :=
        ih { S with queue := setA (SubId.ext n) (getStore S sid).value S.queue }
          (fun en2 hen2 => hx en2 (List.mem_cons_of_mem _ hen2))
      refine ⟨q2, heq, ?_⟩
      intro hS en2 hen2
      exact hh (harmless_setA (SubId.ext n) (getStore S sid).value S.queue rfl hS) en2 hen2

/-- Draining a queue whose entries are all external callbacks or the
batch sentinel only appends to the ghost log. -/
theorem drainLoop_harmless (env : Env) :
    ∀ (fuel : Nat) (S S' : Eng),
    (∀ en ∈ S.queue, harmlessKey en.1 = true) →
    drainLoop env fuel S = (S', .ok ()) →
    S'.stores = S.stores ∧ S'.comps = S.comps ∧ S'.usubTable = S.usubTable ∧
    S'.context = S.context ∧ S'.syncLog = S.syncLog ∧ S'.nextUsub = S.nextUsub := by
  intro fuel
  induction fuel with
  | zero =>
    intro S S' h hrun
    simp [drainLoop] at hrun
  | succ f ih =>
    intro S S' h hrun
    simp only [drainLoop] at hrun
    split at hrun
    next hq =>
      rw [Prod.mk.injEq] at hrun
      obtain ⟨h1, h2⟩ := hrun
      subst h1
      exact ⟨rfl, rfl, rfl, rfl, rfl, rfl⟩
    next sub v rest hq =>
      have hhead : harmlessKey sub = true := by
        have := h (sub, v) (by rw [hq]; exact List.mem_cons_self _ _)
        exact this
      have htail : ∀ en ∈ rest, harmlessKey en.1 = true := by
        intro en hen
        exact h en (by rw [hq]; exact List.mem_cons_of_mem _ hen)
      cases f with
      | zero =>
        cases sub <;> simp [harmlessKey] at hhead <;> simp [invokeSub] at hrun
      | succ f2 =>
        cases sub with
        | writer n t w => simp [harmlessKey] at hhead
        | comp c2 e2 => simp [harmlessKey] at hhead
        | ext n =>
          simp only [invokeSub] at hrun
          obtain ⟨g1, g2, g3, g4, g5, g6⟩ := ih _ S' htail hrun
          exact ⟨g1, g2, g3, g4, g5, g6⟩
        | noopS =>
          simp only [invokeSub] at hrun
          obtain ⟨g1, g2, g3, g4, g5, g6⟩ := ih _ S' htail hrun
          exact ⟨g1, g2, g3, g4, g5, g6⟩

/-- A completed set() on a store whose subscribers are all external
callbacks never changes any subscriber map, stop handle, computed
state, closure table or context: the written value only reaches the
ghost log through the queue drain. -/
theorem storeSet_ext (env : Env) (fuel : Nat) (sid0 : StoreId) (v : JSVal) (S S' : Eng)
    (hrun : storeSet env fuel sid0 v S = (S', .ok ()))
    (hext : ∀ en ∈ (getStore S sid0).subs, extEntry en = true) :
    (∀ sid, (getStore S' sid).subs = (getStore S sid).subs) ∧
    (∀ sid, (getStore S' sid).stop = (getStore S sid).stop) ∧
    S'.comps = S.comps ∧ S'.usubTable = S.usubTable ∧ S'.context = S.context ∧
    S'.syncLog = S.syncLog ∧ S'.nextUsub = S.nextUsub := by
  cases fuel with
  | zero => simp [storeSet] at hrun
  | succ f =>
    simp only [storeSet] at hrun
    split at hrun
    · rw [Prod.mk.injEq] at hrun
      obtain ⟨h1, h2⟩ := hrun
      subst h1
      exact ⟨fun sid => rfl, fun sid => rfl, rfl, rfl, rfl, rfl, rfl⟩
    · have hsub1 : ∀ sid, (getStore (updStore sid0
          (fun st => { st with value := v }) S) sid).subs = (getStore S sid).subs := by
        intro sid
        by_cases h2 : sid = sid0
        · rw [h2, getStore_updStore]
        · rw [getStore_updStore_ne _ _ _ _ h2]
      have hstop1 : ∀ sid, (getStore (updStore sid0
          (fun st => { st with value := v }) S) sid).stop = (getStore S sid).stop := by
        intro sid
        by_cases h2 : sid = sid0
        · rw [h2, getStore_updStore]
        · rw [getStore_updStore_ne _ _ _ _ h2]
      split at hrun
      · cases f with
        | zero => simp [queueRun] at hrun
        | succ f2 =>
          simp only [queueRun, Bool.and_false, Bool.false_eq_true, if_false,
            ite_false] at hrun
          cases f2 with
          | zero => simp [runQFn] at hrun
          | succ f3 =>
            simp only [runQFn] at hrun
            obtain ⟨q2, heqQ, hh⟩ := enqueueSubs_ext env sid0
              ((getStore (updStore sid0 (fun st => { st with value := v }) S) sid0).subs)
              (updStore sid0 (fun st => { st with value := v }) S)
              (by rw [hsub1 sid0]; exact hext)
            rw [heqQ] at hrun
            split at hrun
            next hq =>
              split at hrun
              next S4 hdrain =>
                rw [Prod.mk.injEq] at hrun
                obtain ⟨h1, h2⟩ := hrun
                subst h1
                have hqh : ∀ en ∈ q2, harmlessKey en.1 = true := by
                  apply hh
                  intro en hen
                  rw [List.isEmpty_iff] at hq
                  rw [hq] at hen
                  cases hen
                obtain ⟨g1, g2, g3, g4, g5, g6⟩ :=
                  drainLoop_harmless env _ _ S4 hqh hdrain
                refine ⟨?_, ?_, ?_, ?_, ?_, ?_, ?_⟩
                · intro sid
                  show ((lookupA sid S4.stores).getD dfltStore).subs = (getStore S sid).subs
                  rw [g1]
                  exact hsub1 sid
                · intro sid
                  show ((lookupA sid S4.stores).getD dfltStore).stop = (getStore S sid).stop
                  rw [g1]
                  exact hstop1 sid
                · show S4.comps = S.comps
                  rw [g2]
                  rfl
                · show S4.usubTable = S.usubTable
                  rw [g3]
                  rfl
                · show S4.context = S.context
                  rw [g4]
                  rfl
                · show S4.syncLog = S.syncLog
                  rw [g5]
                  rfl
                · show S4.nextUsub = S.nextUsub
                  rw [g6]
                  rfl
              next S4 e4 hdrain => simp at hrun
            next hq =>
              rw [Prod.mk.injEq] at hrun
              obtain ⟨h1, h2⟩ := hrun
              subst h1
              exact ⟨fun sid => hsub1 sid, fun sid => hstop1 sid, rfl, rfl, rfl, rfl, rfl⟩
      · rw [Prod.mk.injEq] at hrun
        obtain ⟨h1, h2⟩ := hrun
        subst h1
        exact ⟨hsub1, hstop1, rfl, rfl, rfl, rfl, rfl⟩

theorem lookupA_mem {κ α : Type} [DecidableEq κ] {k : κ} {v : α} {l : List (κ × α)}
    (h : lookupA k l = some v) : (k, v) ∈ l := by
  induction l with
  | nil => cases h
  | cons p rest ih =>
    obtain ⟨k2, b⟩ := p
    simp only [lookupA] at h
    by_cases h2 : k2 = k
    · rw [if_pos h2] at h
      rw [Option.some.inj h] at *
      rw [h2]
      exact List.mem_cons_self _ _
    · rw [if_neg h2] at h
      exact List.mem_cons_of_mem _ (ih h)

set_option maxHeartbeats 1000000 in
/-- C5: after each completed run, a derived computation's set of
upstream subscriptions equals exactly the set of containers actually
read during that run.  For every engine state that is well-formed for
the computed activation (its registrations, unsubscribe set and
unsubscribe-closure table are coherent, subscriber maps have no
duplicate keys, only plain start functions and stop handles are in
play, and the output store -- which the computation does not read --
has only external subscribers), a completed sync() leaves a
registration for the activation on a store if and only if that store is
in the recorded read set of the run: dependencies registered before the
run but not read this time are unsubscribed by the finally sweep, newly
read dependencies are subscribed, and the committed unsubscribes set
names exactly the read stores.  The well-formedness is re-established
in the final state, so the property propagates along every sequence of
runs. -/
theorem dependency_set_tracks_reads (env : Env) (c : CompId) (e : Nat)
    (fuel : Nat) (S0 S1 : Eng)
    (hout : env.compOut c ∉ CExp.readsIn (env.compFn c))
    (hW2a : ∀ sid u p, regAt c e S0 sid = some (u, p) →
      lookupA u S0.usubTable = some (sid, SubId.comp c e))
    (hW2b : ∀ sid u p, regAt c e S0 sid = some (u, p) →
      u ∈ (getComp S0 c).unsubscribes)
    (hW3 : ∀ u ∈ (getComp S0 c).unsubscribes, ∃ sid p,
      lookupA u S0.usubTable = some (sid, SubId.comp c e) ∧
      regAt c e S0 sid = some (u, p))
    (hW4 : ∀ sid, plainStop (getStore S0 sid).stop = true)
    (hW5 : ∀ sid, plainStart (env.startOf sid) = true)
    (hW6 : ∀ u, S0.nextUsub ≤ u → lookupA u S0.usubTable = none)
    (hW7 : ∀ sid, ((getStore S0 sid).subs.map Prod.fst).Nodup)
    (hext : ∀ en ∈ (getStore S0 (env.compOut c)).subs, extEntry en = true)
    (hrun : runSync env fuel c e S0 = (S1, .ok ())) :
    ∃ rs us,
      S1.syncLog = S0.syncLog ++ [(c, e, rs)] ∧
      (∀ x ∈ rs, x ∈ CExp.readsIn (env.compFn c)) ∧
      (∀ sid, (regAt c e S1 sid).isSome ↔ sid ∈ rs) ∧
      (getComp S1 c).unsubscribes = us ∧
      (∀ u ∈ us, ∃ sid p, sid ∈ rs ∧
        lookupA u S1.usubTable = some (sid, SubId.comp c e) ∧
        regAt c e S1 sid = some (u, p)) ∧
      (∀ sid u p, regAt c e S1 sid = some (u, p) →
        u ∈ us ∧ lookupA u S1.usubTable = some (sid, SubId.comp c e)) ∧
      (∀ sid, plainStop (getStore S1 sid).stop = true) ∧
      (∀ sid, ((getStore S1 sid).subs.map Prod.fst).Nodup) ∧
      (∀ u, S1.nextUsub ≤ u → lookupA u S1.usubTable = none) ∧
      S1.context = S0.context := by
  cases fuel with
  | zero => simp [runSync] at hrun
  | succ F =>
    have hinit : TrackInv c e S0
        { S0 with context := some ⟨c, e, [], []⟩ } [] [] := by
      refine ⟨rfl, rfl, rfl, rfl, le_refl _, hW6, fun u h => rfl, fun sid h => rfl,
        ?_, ?_, ?_, hW4, hW7⟩
      · intro sid h
        cases h
      · intro sid h
        cases h
      · intro u h
        cases h
    simp only [runSync] at hrun
    split at hrun
    next S2 vv hev =>
      obtain ⟨usF, rsF, hinv, hm0, hr0s, hsub_reads⟩ :=
        evalCExp_track env c e S0 hW2a hW5 F (env.compFn c) _ S2 vv [] [] hinit hev
      simp only [hinv.ctx_eq] at hrun
      have hreads_in : ∀ x ∈ rsF, x ∈ CExp.readsIn (env.compFn c) := by
        intro x hx
        rcases hsub_reads x hx with h | h
        · cases h
        · exact h
      have hout_notin : env.compOut c ∉ rsF := fun hin => hout (hreads_in _ hin)
      have hregS0_out : regAt c e S0 (env.compOut c) = none := by
        cases hro : regAt c e S0 (env.compOut c) with
        | none => rfl
        | some pr =>
          have hmem := lookupA_mem hro
          have := hext _ hmem
          simp [extEntry] at this
      split at hrun
      · split at hrun <;> simp at hrun
      · split at hrun
        next S4 hfin =>
          cases F with
          | zero => simp [evalCExp] at hev
          | succ F2 =>
            have hctx3 : (updComp c (fun cs => { cs with value := vv }) S2).context =
                some ⟨c, e, usF, rsF⟩ := hinv.ctx_eq
            have hcompS2 : getComp S2 c = getComp S0 c := by
              rw [getComp, getComp, hinv.comps_eq]
            simp only [runFinally, hctx3, getComp_updComp, hcompS2] at hfin
            split at hfin
            next SB hsweep =>
              obtain ⟨e1, e2, e3, e4, e5, e6, hplains2, hnodups2, huntouched, herased⟩ :=
                runUnsubs_sweep env c e _ F2 _ SB hsweep
                  (by
                    intro u hu
                    have hmf := List.mem_filter.mp hu
                    obtain ⟨sid, p, htab0, hreg0⟩ := hW3 u hmf.1
                    refine ⟨sid, ?_⟩
                    show lookupA u S2.usubTable = some (sid, SubId.comp c e)
                    rw [hinv.table_mono u (by rw [htab0]; rfl)]
                    exact htab0)
                  (fun sid2 => hinv.stops_plain sid2)
                  (fun sid2 => hinv.subs_nodup sid2)
              rw [Prod.mk.injEq] at hfin
              obtain ⟨h4, h4b⟩ := hfin
              subst h4
              obtain ⟨sf1, sf2, sf3, sf4, sf5, sf6, sf7⟩ :=
                storeSet_ext env (F2+1) (env.compOut c) vv _ S1 hrun
                  (by
                    intro en hen
                    apply hext en
                    have hB2 := huntouched (env.compOut c) (by
                      intro u hu htabu
                      have hmf := List.mem_filter.mp hu
                      obtain ⟨sid2, p2, htab0, hreg0⟩ := hW3 u hmf.1
                      have htabu2 : lookupA u S2.usubTable =
                          some (env.compOut c, SubId.comp c e) := htabu
                      rw [hinv.table_mono u (by rw [htab0]; rfl), htab0] at htabu2
                      have hss : sid2 = env.compOut c :=
                        congrArg Prod.fst (Option.some.inj htabu2)
                      rw [hss] at hreg0
                      rw [hreg0] at hregS0_out
                      cases hregS0_out)
                    have hen2 : en ∈ (getStore SB (env.compOut c)).subs := hen
                    rw [hB2] at hen2
                    have hen3 : en ∈ (getStore S2 (env.compOut c)).subs := hen2
                    rw [hinv.unread (env.compOut c) hout_notin] at hen3
                    exact hen3)
              have hregchainB : ∀ sid, regAt c e S1 sid = regAt c e SB sid := by
                intro sid
                simp only [regAt]
                rw [sf1 sid]
                rfl
              have hBr : ∀ sid, sid ∈ rsF → regAt c e SB sid = regAt c e S2 sid := by
                intro sid hin
                have hB2 := huntouched sid (by
                  intro u hu htabu
                  have hmf := List.mem_filter.mp hu
                  have hnotusF : u ∉ usF := by simpa using hmf.2
                  obtain ⟨sid2, p2, htab0, hreg0⟩ := hW3 u hmf.1
                  have htabu2 : lookupA u S2.usubTable =
                      some (sid, SubId.comp c e) := htabu
                  rw [hinv.table_mono u (by rw [htab0]; rfl), htab0] at htabu2
                  have hss : sid2 = sid := congrArg Prod.fst (Option.some.inj htabu2)
                  rw [hss] at hreg0
                  exact hnotusF (hinv.read_old sid hin u p2 hreg0).2)
                simp only [regAt]
                rw [hB2]
                rfl
              have hGBn : ∀ sid, sid ∉ rsF → regAt c e S0 sid = none →
                  getStore SB sid = getStore S0 sid := by
                intro sid hnin hr0
                have hB2 := huntouched sid (by
                  intro u hu htabu
                  have hmf := List.mem_filter.mp hu
                  obtain ⟨sid2, p2, htab0, hreg0⟩ := hW3 u hmf.1
                  have htabu2 : lookupA u S2.usubTable =
                      some (sid, SubId.comp c e) := htabu
                  rw [hinv.table_mono u (by rw [htab0]; rfl), htab0] at htabu2
                  have hss : sid2 = sid := congrArg Prod.fst (Option.some.inj htabu2)
                  rw [hss] at hreg0
                  rw [hreg0] at hr0
                  cases hr0)
                rw [hB2]
                show getStore S2 sid = getStore S0 sid
                exact hinv.unread sid hnin
              have htabF : S1.usubTable = S2.usubTable := by
                rw [sf4]
                exact e1
              have hnextF : S1.nextUsub = S2.nextUsub := by
                rw [sf7]
                exact e6
              have hsyncSB : SB.syncLog = S0.syncLog := by
                rw [e5]
                exact hinv.syncLog_eq
              have hcompF : getComp S1 c = { getComp SB c with unsubscribes := usF } := by
                simp only [getComp]
                rw [sf3]
                show (lookupA c (setA c { getComp SB c with unsubscribes := usF }
                  SB.comps)).getD dfltComp = _
                rw [lookupA_setA_self]
                rfl
              have hiff : ∀ sid, (regAt c e S1 sid).isSome = true ↔ sid ∈ rsF := by
                intro sid
                rw [hregchainB sid]
                by_cases hin : sid ∈ rsF
                · simp only [hin, iff_true]
                  rw [hBr sid hin]
                  cases hr0 : regAt c e S0 sid with
                  | some pr =>
                    obtain ⟨u1, p1⟩ := pr
                    rw [(hinv.read_old sid hin u1 p1 hr0).1]
                    rfl
                  | none =>
                    obtain ⟨u1, ha, hb, hc⟩ := hinv.read_new sid hin hr0
                    rw [ha]
                    rfl
                · simp only [hin, iff_false]
                  cases hr0 : regAt c e S0 sid with
                  | none =>
                    have hB0 := hGBn sid hin hr0
                    have hz : regAt c e SB sid = none := by
                      simp only [regAt]
                      rw [hB0]
                      exact hr0
                    rw [hz]
                    simp
                  | some pr =>
                    obtain ⟨u1, p1⟩ := pr
                    have hold : u1 ∈ (getComp S0 c).unsubscribes := hW2b sid u1 p1 hr0
                    have htab0 : lookupA u1 S0.usubTable =
                        some (sid, SubId.comp c e) := hW2a sid u1 p1 hr0
                    have hnotusF : u1 ∉ usF := by
                      intro hmem
                      obtain ⟨sid2, hsid2, htabu, p2, hregu⟩ := hinv.us_dom u1 hmem
                      rw [hinv.table_mono u1 (by rw [htab0]; rfl), htab0] at htabu
                      have hss : sid = sid2 := congrArg Prod.fst (Option.some.inj htabu)
                      rw [hss] at hin
                      exact hin hsid2
                    have hmemfil : u1 ∈ (getComp S0 c).unsubscribes.filter
                        (fun u => ¬ u ∈ usF) := by
                      rw [List.mem_filter]
                      exact ⟨hold, by simpa using hnotusF⟩
                    have htabSA : lookupA u1 S2.usubTable =
                        some (sid, SubId.comp c e) := by
                      rw [hinv.table_mono u1 (by rw [htab0]; rfl)]
                      exact htab0
                    have herz := herased sid u1 hmemfil htabSA
                    rw [herz]
                    simp
              refine ⟨rsF, usF, ?_, hreads_in, hiff, ?_, ?_, ?_, ?_, ?_, ?_, ?_⟩
              · rw [sf6]
                show SB.syncLog ++ [(c, e, rsF)] = S0.syncLog ++ [(c, e, rsF)]
                rw [hsyncSB]
              · rw [hcompF]
              · intro u hu
                obtain ⟨sid, hsid, htabu, p, hregu⟩ := hinv.us_dom u hu
                refine ⟨sid, p, hsid, ?_, ?_⟩
                · rw [htabF]
                  exact htabu
                · rw [hregchainB sid, hBr sid hsid]
                  exact hregu
              · intro sid u p hreg
                have hin : sid ∈ rsF := (hiff sid).mp (by rw [hreg]; rfl)
                rw [hregchainB sid, hBr sid hin] at hreg
                cases hr0 : regAt c e S0 sid with
                | some pr =>
                  obtain ⟨u0, p0⟩ := pr
                  obtain ⟨ha, hb⟩ := hinv.read_old sid hin u0 p0 hr0
                  rw [ha] at hreg
                  have hu : u0 = u := congrArg Prod.fst (Option.some.inj hreg)
                  constructor
                  · rw [← hu]
                    exact hb
                  · rw [htabF, ← hu]
                    rw [hinv.table_mono u0 (by rw [hW2a sid u0 p0 hr0]; rfl)]
                    exact hW2a sid u0 p0 hr0
                | none =>
                  obtain ⟨u1, ha, hb, hc⟩ := hinv.read_new sid hin hr0
                  rw [ha] at hreg
                  have hu : u1 = u := congrArg Prod.fst (Option.some.inj hreg)
                  constructor
                  · rw [← hu]
                    exact hb
                  · rw [htabF, ← hu]
                    exact hc
              · intro sid
                have hst : (getStore S1 sid).stop = (getStore SB sid).stop := by
                  rw [sf2 sid]
                  rfl
                rw [hst]
                exact hplains2 sid
              · intro sid
                have hsb : (getStore S1 sid).subs = (getStore SB sid).subs := by
                  rw [sf1 sid]
                  rfl
                rw [hsb]
                exact hnodups2 sid
              · intro u hgeu
                rw [htabF]
                rw [hnextF] at hgeu
                exact hinv.fresh u hgeu
              · rw [sf5]
            next SB eB hsweep => simp at hfin
        next S4 e4 hfin => simp at hrun
    next S2 e2 hev =>
      split at hrun <;> simp at hrun

theorem c5_subs_empty (sid : StoreId) : (getStore c5S0 sid).subs = [] := by
  by_cases h0 : sid = 0
  · subst h0
    rfl
  by_cases h1 : sid = 1
  · subst h1
    rfl
  by_cases h2 : sid = 2
  · subst h2
    rfl
  by_cases h3 : sid = 3
  · subst h3
    rfl
  simp [getStore, c5S0, lookupA, dfltStore, Ne.symm h0, Ne.symm h1, Ne.symm h2,
    Ne.symm h3]

theorem c5_stop_none (sid : StoreId) : (getStore c5S0 sid).stop = none := by
  by_cases h0 : sid = 0
  · subst h0
    rfl
  by_cases h1 : sid = 1
  · subst h1
    rfl
  by_cases h2 : sid = 2
  · subst h2
    rfl
  by_cases h3 : sid = 3
  · subst h3
    rfl
  simp [getStore, c5S0, lookupA, dfltStore, Ne.symm h0, Ne.symm h1, Ne.symm h2,
    Ne.symm h3]

theorem c5_reg_none (sid : StoreId) : regAt 0 0 c5S0 sid = none := by
  simp only [regAt]
  rw [c5_subs_empty sid]
  rfl

/-- Witness for C5 at a concrete conditional computation: computed 0
reads the selector store 2 (truthy) and then store 0, so after the run
its registrations and unsubscribe set cover exactly stores 2 and 0. -/
theorem dependency_set_tracks_reads_witness :
    ∃ rs us,
      c5S1.syncLog = c5S0.syncLog ++ [(0, 0, rs)] ∧
      (∀ x ∈ rs, x ∈ CExp.readsIn (c5Env.compFn 0)) ∧
      (∀ sid, (regAt 0 0 c5S1 sid).isSome ↔ sid ∈ rs) ∧
      (getComp c5S1 0).unsubscribes = us ∧
      (∀ u ∈ us, ∃ sid p, sid ∈ rs ∧
        lookupA u c5S1.usubTable = some (sid, SubId.comp 0 0) ∧
        regAt 0 0 c5S1 sid = some (u, p)) ∧
      (∀ sid u p, regAt 0 0 c5S1 sid = some (u, p) →
        u ∈ us ∧ lookupA u c5S1.usubTable = some (sid, SubId.comp 0 0)) ∧
      (∀ sid, plainStop (getStore c5S1 sid).stop = true) ∧
      (∀ sid, ((getStore c5S1 sid).subs.map Prod.fst).Nodup) ∧
      (∀ u, c5S1.nextUsub ≤ u → lookupA u c5S1.usubTable = none) ∧
      c5S1.context = c5S0.context :=
  dependency_set_tracks_reads c5Env 0 0 12 c5S0 c5S1
    (by decide)
    (fun sid u p h => by rw [c5_reg_none sid] at h; cases h)
    (fun sid u p h => by rw [c5_reg_none sid] at h; cases h)
    (by intro u hu; simp [getComp, c5S0, lookupA, initComp] at hu)
    (fun sid => by rw [c5_stop_none sid]; rfl)
    (fun sid => rfl)
    (fun u h => rfl)
    (fun sid => by rw [c5_subs_empty sid]; simp)
    (by intro en hen; rw [c5_subs_empty (c5Env.compOut 0)] at hen; cases hen)
    (by decide)
